import Mathlib

/-!
Verification of the orchestration core of the zaassistant browser client:
the retrying request layer (`withRetry` / `postJSON` in src/api/apiClient.ts),
the response-normalizer family (ProductAnalysisReader, CritiqueResponseParser,
AssessmentResponseParser, SolutionArchitectResponseParser), the history store
(`HistoryManager` in src/api/apiClient.ts) and the session cache
(`CacheManager` in src/lib/cache.ts).

JavaScript runtime values are embedded as the inductive type `JVal`.
Numbers are modelled as `Int` (the claims under study never exercise
fractional or NaN-producing arithmetic on data values); `undefined` is
modelled as `Option.none` at property-lookup boundaries; JS objects are
association lists in insertion order; JS arrays carry both their elements and
(since the source mutates named properties onto possibly-array values) an
association list of named properties.  Assignment to a property of a
primitive value throws a TypeError in strict mode; such throws are modelled
as `Option.none` / `Except.error` results.
-/

/-- A JavaScript runtime value as used by the normalizers. -/
inductive JVal where
  | jnull : JVal
  | jbool (b : Bool) : JVal
  | jnum (n : Int) : JVal
  | jstr (s : String) : JVal
  | jarr (elems : List JVal) (props : List (String × JVal)) : JVal
  | jobj (props : List (String × JVal)) : JVal

namespace JVal

/-- JS truthiness of a value: `null`, `false`, `0` and `""` are falsy;
objects and arrays (even empty ones) are truthy. -/
def truthy : JVal → Bool
  | jnull => false
  | jbool b => b
  | jnum n => n != 0
  | jstr s => !s.isEmpty
  | jarr _ _ => true
  | jobj _ => true

/-- JS truthiness of a possibly-`undefined` value (`undefined` is falsy). -/
def truthyOpt : Option JVal → Bool
  | none => false
  | some v => truthy v

/-- `Array.isArray`. -/
def isArray : JVal → Bool
  | jarr _ _ => true
  | _ => false

/-- A value on which property assignment is legal (an object or an array). -/
def isObjArr : JVal → Bool
  | jarr _ _ => true
  | jobj _ => true
  | _ => false

end JVal

/-- Lookup of a key in an association list (first occurrence wins, like a
JS object whose keys are unique; duplicate keys read the first entry). -/
def getAssoc : List (String × JVal) → String → Option JVal
  | [], _ => none
  | (k, v) :: rest, key => if k = key then some v else getAssoc rest key

/-- Assignment `o[key] = v` on an association list: replaces the first
occurrence in place (JS keeps insertion order on re-assignment), appends a
new entry otherwise. -/
def setAssoc : List (String × JVal) → String → JVal → List (String × JVal)
  | [], key, v => [(key, v)]
  | (k, w) :: rest, key, v =>
    if k = key then (key, v) :: rest else (k, w) :: setAssoc rest key v

namespace JVal

/-- Property read `v[key]`: `undefined` (`none`) on primitives (none of the
property names used by the source is a built-in of a primitive). -/
def getProp : JVal → String → Option JVal
  | jobj ps, k => getAssoc ps k
  | jarr _ ps, k => getAssoc ps k
  | _, _ => none

/-- Property write `v[key] = x`: succeeds on objects and arrays, throws a
TypeError (modelled `none`) on primitives in strict mode. -/
def setProp : JVal → String → JVal → Option JVal
  | jobj ps, k, v => some (jobj (setAssoc ps k v))
  | jarr es ps, k, v => some (jarr es (setAssoc ps k v))
  | _, _, _ => none

end JVal

open JVal

/-! ## ProductAnalysisReader (src/lib/ProductAnalysisReader.ts)

`normalizeData` mutates `this.data` in place; here the mutation is modelled
by value-passing: each step returns the updated record, and a nested
mutation is written back with `setProp` (a no-op when nothing changed, by
`setProp_getProp_eq`).  A property assignment on a primitive value throws
in strict mode, modelled as `none`. -/

namespace ProductAnalysisReader

/-- One step `if (!data[k]) data[k] = dflt` of `normalizeData`. -/
def coerceFalsyField (d : JVal) (k : String) (dflt : JVal) : Option JVal :=
  if truthyOpt (d.getProp k) then some d else d.setProp k dflt

/-- The object assigned to a missing/falsy `user_problem_goal`. -/
def defaultUserProblemGoal : JVal :=
  .jobj [("problem", .jstr ""), ("user_goal", .jstr "")]

/-- The object assigned to a missing/falsy `scope`. -/
def defaultScope : JVal :=
  .jobj [("in_scope", .jarr [] []), ("out_scope", .jarr [] []),
         ("constraints", .jarr [] [])]

/-- `if (!o[k]) o[k] = ''` on the nested `user_problem_goal` object. -/
def coerceFalsySub (v : JVal) (k : String) : Option JVal :=
  if truthyOpt (v.getProp k) then some v else v.setProp k (.jstr "")

/-- The `user_problem_goal` block of `normalizeData` (lines 166-178). -/
def normUserProblemGoal (d : JVal) : Option JVal :=
  match d.getProp "user_problem_goal" with
  | none => d.setProp "user_problem_goal" defaultUserProblemGoal
  | some upg =>
    if upg.truthy then
      (coerceFalsySub upg "problem").bind fun upg =>
      (coerceFalsySub upg "user_goal").bind fun upg =>
      d.setProp "user_problem_goal" upg
    else d.setProp "user_problem_goal" defaultUserProblemGoal

/-- One step `if (!Array.isArray(o[k])) o[k] = o[k] ? [o[k]] : []`. -/
def coerceArrayProp (o : JVal) (k : String) : Option JVal :=
  match o.getProp k with
  | some v =>
    if v.isArray then some o
    else o.setProp k (if v.truthy then .jarr [v] [] else .jarr [] [])
  | none => o.setProp k (.jarr [] [])

/-- The `scope` block of `normalizeData` (lines 198-220). -/
def normScope (d : JVal) : Option JVal :=
  match d.getProp "scope" with
  | none => d.setProp "scope" defaultScope
  | some sc =>
    if sc.truthy then
      (coerceArrayProp sc "in_scope").bind fun sc =>
      (coerceArrayProp sc "out_scope").bind fun sc =>
      (coerceArrayProp sc "constraints").bind fun sc =>
      d.setProp "scope" sc
    else d.setProp "scope" defaultScope

/-- `ProductAnalysisReader.normalizeData` (lines 153-227).  `none` models a
thrown TypeError (property assignment on a primitive). -/
def normalizeData (d : JVal) : Option JVal :=
  if d.truthy = false then some d
  else
    (coerceFalsyField d "product_goal" (.jstr "")).bind fun d =>
    (coerceFalsyField d "business_goal" (.jstr "")).bind fun d =>
    (normUserProblemGoal d).bind fun d =>
    (coerceFalsyField d "key_assumptions_open_questions" (.jstr "")).bind fun d =>
    (coerceArrayProp d "target_segments").bind fun d =>
    (coerceArrayProp d "user_insights_data").bind fun d =>
    (normScope d).bind fun d =>
    coerceArrayProp d "success_metrics"

/-- `v === undefined || v === null`. -/
def isUndefOrNull : Option JVal → Bool
  | none => true
  | some .jnull => true
  | some _ => false

/-- `Array.isArray(v)` where `v` may be `undefined`. -/
def isArrayOpt : Option JVal → Bool
  | some v => v.isArray
  | none => false

/-- The `{isValid, errors}` result of `ProductAnalysisReader.validate`. -/
structure ValidationResult where
  isValid : Bool
  errors : List String

/-- `ProductAnalysisReader.validate` (lines 85-148): collects every
violation into `errors` in source order and never throws. -/
def validate (d : JVal) : ValidationResult :=
  if d.truthy = false then ⟨false, ["No data loaded"]⟩
  else
    let errs :=
      (if isUndefOrNull (d.getProp "product_goal") then ["Missing product_goal"] else [])
      ++ (match d.getProp "user_problem_goal" with
          | some upg =>
            if upg.truthy then
              (if isUndefOrNull (upg.getProp "problem") then
                ["Missing user_problem_goal.problem"] else [])
              ++ (if isUndefOrNull (upg.getProp "user_goal") then
                ["Missing user_problem_goal.user_goal"] else [])
            else ["Missing user_problem_goal"]
          | none => ["Missing user_problem_goal"])
      ++ (if isArrayOpt (d.getProp "target_segments") then []
          else ["target_segments must be an array"])
      ++ (if isArrayOpt (d.getProp "user_insights_data") then []
          else ["user_insights_data must be an array"])
      ++ (match d.getProp "scope" with
          | some sc =>
            if sc.truthy then
              (if isArrayOpt (sc.getProp "in_scope") then []
                else ["scope.in_scope must be an array"])
              ++ (if isArrayOpt (sc.getProp "out_scope") then []
                else ["scope.out_scope must be an array"])
              ++ (if isArrayOpt (sc.getProp "constraints") then []
                else ["scope.constraints must be an array"])
            else ["Missing scope"]
          | none => ["Missing scope"])
      ++ (if isArrayOpt (d.getProp "success_metrics") then []
          else ["success_metrics must be an array"])
    ⟨errs.isEmpty, errs⟩

end ProductAnalysisReader

namespace ProductAnalysisReader

/-- Postcondition of a `coerceFalsyField` step: the field is truthy or `""`. -/
def FalsyFieldOk (d : JVal) (k : String) : Prop :=
  truthyOpt (d.getProp k) = true ∨ d.getProp k = some (.jstr "")

/-- Postcondition of a `coerceArrayProp` step: the field is an array. -/
def ArrFieldOk (d : JVal) (k : String) : Prop :=
  ∃ es ps, d.getProp k = some (.jarr es ps)

/-- Postcondition of the `user_problem_goal` block. -/
def UpgOk (d : JVal) : Prop :=
  ∃ upg, d.getProp "user_problem_goal" = some upg ∧ upg.isObjArr = true ∧
    (truthyOpt (upg.getProp "problem") = true ∨ upg.getProp "problem" = some (.jstr "")) ∧
    (truthyOpt (upg.getProp "user_goal") = true ∨ upg.getProp "user_goal" = some (.jstr ""))

/-- Postcondition of the `scope` block. -/
def ScopeOk (d : JVal) : Prop :=
  ∃ sc, d.getProp "scope" = some sc ∧ sc.isObjArr = true ∧
    ArrFieldOk sc "in_scope" ∧ ArrFieldOk sc "out_scope" ∧ ArrFieldOk sc "constraints"

/-- A record on which every step of `normalizeData` is a no-op. -/
def NormalizedRec (e : JVal) : Prop :=
  e.truthy = false ∨
  (e.isObjArr = true ∧ FalsyFieldOk e "product_goal" ∧ FalsyFieldOk e "business_goal" ∧
   UpgOk e ∧ FalsyFieldOk e "key_assumptions_open_questions" ∧
   ArrFieldOk e "target_segments" ∧ ArrFieldOk e "user_insights_data" ∧
   ScopeOk e ∧ ArrFieldOk e "success_metrics")

end ProductAnalysisReader

/-! ## Request layer (src/api/apiClient.ts lines 63-233) -/

/-- `RETRY_CONFIG.maxRetries`. -/
def maxRetries : Nat := 5

/-- `RETRY_CONFIG.retryDelay` in milliseconds. -/
def retryDelay : Nat := 1000

/-- The `APIResponse<T>` envelope, with the payload modelled as `JVal`. -/
structure APIResponse where
  success : Bool
  data : Option JVal := none
  error : Option String := none
  message : Option String := none

/-- The observable behaviour of one invocation of the wrapped `operation`:
the promise either rejects (throws) with an error message or resolves to an
envelope. -/
inductive AttemptOutcome where
  | throws (msg : String)
  | resolves (env : APIResponse)

/-- `String(lastError)` when building the final error envelope. -/
def stringOfLastError : Option String → String
  | some m => m
  | none => "undefined"

/-- The observable result of `withRetry`: the envelope it resolves to, the
number of invocations of the operation, and the inter-retry delays (ms) in
order.  `withRetry` never rejects, so the result type carries no throw
case. -/
structure RetryTrace where
  result : APIResponse
  attemptsMade : Nat
  delays : List Nat

/-- The retry loop of `withRetry` (lines 77-125) starting at iteration
`attempt`; `op n` is the outcome of the n-th invocation of `operation` and
`lastError` is the message of the last caught throw, if any.  A resolved
envelope with `success: false` retries after `retryDelay` while
`attempt <= maxRetries`, and is otherwise returned as-is; a throw retries
likewise, and on the final attempt falls through to the exhaustion envelope
`{success: false, error: String(lastError)}` (lines 127-145). -/
def withRetryGo (op : Nat → AttemptOutcome) (attempt : Nat) (lastError : Option String) :
    RetryTrace :=
  match op attempt with
  | .resolves env =>
    if h : env.success = false ∧ attempt ≤ maxRetries then
      let t := withRetryGo op (attempt + 1) lastError
      ⟨t.result, t.attemptsMade + 1, retryDelay :: t.delays⟩
    else ⟨env, 1, []⟩
  | .throws msg =>
    if h : attempt ≤ maxRetries then
      let t := withRetryGo op (attempt + 1) (some msg)
      ⟨t.result, t.attemptsMade + 1, retryDelay :: t.delays⟩
    else ⟨{ success := false, error := some (stringOfLastError (some msg)) }, 1, []⟩
  termination_by maxRetries + 1 - attempt
  decreasing_by all_goals omega

/-- `withRetry(operation, endpoint, requestId)`: the loop starts at attempt
1 with no recorded error. -/
def withRetry (op : Nat → AttemptOutcome) : RetryTrace :=
  withRetryGo op 1 none

/-- An attempt counted as a retryable failure: the operation throws, or it
resolves to an envelope with `success: false`. -/
def failedAttempt : AttemptOutcome → Bool
  | .throws _ => true
  | .resolves env => !env.success

/-- The error message carried by a failing outcome (for a resolved failure
envelope, its `error` field). -/
def lastFailureError : AttemptOutcome → Option String
  | .throws m => some m
  | .resolves env => env.error

/-- What the exhausted loop resolves to when the final attempt also fails:
the final envelope itself if the operation resolved, the exhaustion
envelope built from the caught error if it threw. -/
def finalFailureEnv : AttemptOutcome → APIResponse
  | .resolves env => env
  | .throws m => { success := false, error := some (stringOfLastError (some m)) }

/-- The observable behaviour of one `fetch` in `postJSON`: either the fetch
promise rejects, or an HTTP response arrives with `ok`/`status`/`statusText`
and a `res.json()` outcome (`Except.error` = body is not valid JSON). -/
inductive FetchOutcome where
  | fthrows (msg : String)
  | fresp (ok : Bool) (status : Nat) (statusText : String) (body : Except String JVal)

/-- The inner `operation` closure of `postJSON` (lines 155-230): it catches
every throw and always resolves to an envelope. -/
def postJSONOperation : FetchOutcome → APIResponse
  | .fthrows msg => { success := false, error := some msg }
  | .fresp ok status statusText body =>
    if ok = false then
      { success := false,
        error := some ("API error: " ++ toString status ++ " - " ++ statusText) }
    else
      match body with
      | .error msg => { success := false, error := some msg }
      | .ok v => { success := true, data := some v }

/-- `postJSON(endpoint, payload)`: the n-th attempt observes the n-th fetch
outcome; the operation never throws, so every attempt resolves. -/
def postJSON (fetches : Nat → FetchOutcome) : RetryTrace :=
  withRetry (fun n => .resolves (postJSONOperation (fetches n)))

/-- The documented `APIResult` envelope invariant: `success=true` iff data
present and error absent; `success=false` iff error present and data
absent. -/
def envInv (e : APIResponse) : Prop :=
  (e.success = true → e.data.isSome = true ∧ e.error = none) ∧
  (e.success = false → e.error.isSome = true ∧ e.data = none)

/-! ## Shared JS helpers for the parser family -/

/-- `a || b` on possibly-`undefined` values: `a` if truthy, else `b`. -/
def jsOr (a b : Option JVal) : Option JVal :=
  if truthyOpt a then a else b

/-- `a || dflt` with a definite fallback value. -/
def jsOrDefault (a : Option JVal) (dflt : JVal) : JVal :=
  if truthyOpt a then a.getD dflt else dflt

/-- `typeof v === 'string'` for a possibly-`undefined` value. -/
def isStrOpt : Option JVal → Bool
  | some (.jstr _) => true
  | _ => false

/-- `typeof v === 'number'` for a possibly-`undefined` value. -/
def isNumOpt : Option JVal → Bool
  | some (.jnum _) => true
  | _ => false

/-- `v && typeof v === 'object'` (a non-null object or array) for a
possibly-`undefined` value. -/
def isObjArrOpt : Option JVal → Bool
  | some v => v.isObjArr
  | none => false

/-- `Array.isArray(v)` for a possibly-`undefined` value. -/
def isArrOpt : Option JVal → Bool
  | some v => v.isArray
  | none => false

/-- `v === null` (the parsers initialise their record field to `null`). -/
def jsIsNull : JVal → Bool
  | .jnull => true
  | _ => false

/-- `v?.k`: optional chaining short-circuits on `null`, otherwise reads the
property. -/
def optChain (v : JVal) (k : String) : Option JVal :=
  if jsIsNull v then none else v.getProp k

/-! ## SolutionArchitectResponseParser (src/lib/SolutionArchitectResponseParser.ts)

`validateData` throws (modelled `Except.error`) at the first violation;
accessors throw `"Data not loaded..."` when no record is loaded. -/

namespace SolutionArchitectResponseParser

/-- `if (!cond) throw new Error(msg)`. -/
def check (cond : Bool) (msg : String) : Except String Unit :=
  if cond then .ok () else .error msg

/-- `arr.forEach((x, i) => body)` in a throwing context, starting at index
`i`. -/
def forEachIdx (f : Nat → JVal → Except String Unit) : Nat → List JVal → Except String Unit
  | _, [] => .ok ()
  | i, x :: xs => (f i x).bind fun _ => forEachIdx f (i + 1) xs

/-- The per-approach body of `validateData` (lines 374-446). -/
def validateAnalysisEntry (i : Nat) (a : JVal) : Except String Unit :=
  (check a.isObjArr s!"solution_analysis[{i}] must be an object").bind fun _ =>
  (check (isStrOpt (a.getProp "approach_name"))
    s!"solution_analysis[{i}].approach_name must be a string").bind fun _ =>
  (check (isStrOpt (a.getProp "description"))
    s!"solution_analysis[{i}].description must be a string").bind fun _ =>
  let pros := jsOr (a.getProp "pros") (a.getProp "key_benefits")
  (check (!(truthyOpt pros && !isArrOpt pros))
    s!"solution_analysis[{i}].pros or key_benefits must be an array").bind fun _ =>
  (if truthyOpt pros then
      match pros with
      | some (.jarr es _) =>
        forEachIdx (fun j p => check (isStrOpt (some p))
          s!"solution_analysis[{i}].pros/key_benefits[{j}] must be a string") 0 es
      | _ => .ok ()   -- unreachable: a truthy non-array was rejected above
    else .ok ()).bind fun _ =>
  let risks := jsOr (a.getProp "risk_tradeoff_analysis")
    (a.getProp "implementation_risk_analysis")
  (check (!(truthyOpt risks && !isArrOpt risks))
    s!"solution_analysis[{i}].risk_tradeoff_analysis or implementation_risk_analysis must be an array").bind fun _ =>
  (if truthyOpt risks then
      match risks with
      | some (.jarr es _) =>
        forEachIdx (fun j r =>
          (check r.isObjArr
            s!"solution_analysis[{i}].risk_tradeoff_analysis/implementation_risk_analysis[{j}] must be an object").bind fun _ =>
          (check (isStrOpt (r.getProp "risk"))
            s!"solution_analysis[{i}].risk_tradeoff_analysis/implementation_risk_analysis[{j}].risk must be a string").bind fun _ =>
          (check (isStrOpt (r.getProp "mitigation_idea"))
            s!"solution_analysis[{i}].risk_tradeoff_analysis/implementation_risk_analysis[{j}].mitigation_idea must be a string").bind fun _ =>
          check (isStrOpt (r.getProp "resulting_tradeoff"))
            s!"solution_analysis[{i}].risk_tradeoff_analysis/implementation_risk_analysis[{j}].resulting_tradeoff must be a string") 0 es
      | _ => .ok ()   -- unreachable: a truthy non-array was rejected above
    else .ok ())

/-- The per-row body of the evaluation-table loop (lines 466-496). -/
def validateTableEntry (i : Nat) (entry : JVal) : Except String Unit :=
  (check entry.isObjArr
    s!"comparison_summary.evaluation_table/prioritization_matrix[{i}] must be an object").bind fun _ =>
  (check (isStrOpt (entry.getProp "approach_name"))
    s!"comparison_summary.evaluation_table/prioritization_matrix[{i}].approach_name must be a string").bind fun _ =>
  (check (isStrOpt (entry.getProp "impact_score"))
    s!"comparison_summary.evaluation_table/prioritization_matrix[{i}].impact_score must be a string").bind fun _ =>
  (check (isStrOpt (entry.getProp "effort_score"))
    s!"comparison_summary.evaluation_table/prioritization_matrix[{i}].effort_score must be a string").bind fun _ =>
  check (isStrOpt (entry.getProp "confidence_score"))
    s!"comparison_summary.evaluation_table/prioritization_matrix[{i}].confidence_score must be a string"

/-- `validateData` (lines 361-502): throws at the first violation found. -/
def validateData (d : JVal) : Except String Unit :=
  (check d.isObjArr "Data must be a non-null object").bind fun _ =>
  (check (isStrOpt (d.getProp "problem_statement"))
    "problem_statement must be a string").bind fun _ =>
  (check (isArrOpt (d.getProp "solution_analysis"))
    "solution_analysis must be an array").bind fun _ =>
  (match d.getProp "solution_analysis" with
   | some (.jarr es _) => forEachIdx validateAnalysisEntry 0 es
   | _ => .ok ()).bind fun _ =>  -- unreachable: checked to be an array above
  (check (isObjArrOpt (d.getProp "comparison_summary"))
    "comparison_summary must be an object").bind fun _ =>
  match d.getProp "comparison_summary" with
  | some cs =>
    let evalT := jsOr (cs.getProp "evaluation_table") (cs.getProp "prioritization_matrix")
    (check (!(truthyOpt evalT && !isArrOpt evalT))
      "comparison_summary.evaluation_table or prioritization_matrix must be an array").bind fun _ =>
    (if truthyOpt evalT then
        match evalT with
        | some (.jarr es _) => forEachIdx validateTableEntry 0 es
        | _ => .ok ()   -- unreachable: a truthy non-array was rejected above
      else .ok ()).bind fun _ =>
    check (isStrOpt (cs.getProp "recommendation"))
      "comparison_summary.recommendation must be a string"
  | none => .ok ()   -- unreachable: comparison_summary checked present above

/-- Parser state: `private data` and `private isLoadedFlag` (lines 41-42). -/
structure State where
  data : Option JVal := none
  isLoadedFlag : Bool := false

/-- A freshly constructed parser. -/
def State.init : State := {}

/-- `loadFromObject(data)` (lines 47-58): on a validation throw the flag is
reset and the error is re-thrown wrapped; `this.data` keeps its previous
value. -/
def loadFromObject (st : State) (d : JVal) : State × Except String Unit :=
  match validateData d with
  | .ok _ => (⟨some d, true⟩, .ok ())
  | .error m =>
    ({ st with isLoadedFlag := false },
      .error ("Failed to load solution architect data: " ++ m))

/-- `isLoaded()` (lines 63-65). -/
def isLoaded (st : State) : Bool :=
  st.isLoadedFlag && st.data.isSome

/-- The message of every not-loaded accessor throw. -/
def notLoadedMsg : String := "Data not loaded. Call loadFromObject() first."

/-- `solution_analysis.find(a => a.approach_name === approachName)`:
strict equality with a string holds only for that exact string value. -/
def findApproach (d : JVal) (approachName : String) : Option JVal :=
  match d.getProp "solution_analysis" with
  | some (.jarr es _) =>
    es.find? (fun a =>
      match a.getProp "approach_name" with
      | some (.jstr s) => s = approachName
      | _ => false)
  | _ => none

/-- `getEvaluationTable()` (lines 149-158).  On loaded (hence validated)
data `comparison_summary` is always a present object; the `.getD .jnull`
fallback is unreachable then. -/
def getEvaluationTable (st : State) : Except String JVal :=
  if isLoaded st = false then .error notLoadedMsg
  else
    match st.data with
    | some d =>
      let cs := (d.getProp "comparison_summary").getD .jnull
      .ok (jsOrDefault
        (jsOr (cs.getProp "evaluation_table") (cs.getProp "prioritization_matrix"))
        (.jarr [] []))
    | none => .error notLoadedMsg   -- unreachable: isLoaded requires data

/-- `getSolutionAnalysis(approachName)` (lines 97-106): `find(...) || null`,
with both `undefined` and `null` modelled as `none`. -/
def getSolutionAnalysis (st : State) (approachName : String) :
    Except String (Option JVal) :=
  if isLoaded st = false then .error notLoadedMsg
  else
    match st.data with
    | some d => .ok (findApproach d approachName)
    | none => .error notLoadedMsg   -- unreachable: isLoaded requires data

/-- `getApproachPros(approachName)` (lines 281-288):
`analysis ? analysis.pros || analysis.key_benefits || [] : []`. -/
def getApproachPros (st : State) (approachName : String) : Except String JVal :=
  if isLoaded st = false then .error notLoadedMsg
  else
    match st.data with
    | some d =>
      match findApproach d approachName with
      | some a =>
        .ok (jsOrDefault (jsOr (a.getProp "pros") (a.getProp "key_benefits"))
          (.jarr [] []))
      | none => .ok (.jarr [] [])
    | none => .error notLoadedMsg   -- unreachable: isLoaded requires data

/-- `loadFromObject` stores the validated record unchanged (line 50): the
solution-architect family applies no coercion, so its normalization step is
the identity on the stored record. -/
def normalizeStep (d : JVal) : JVal := d

end SolutionArchitectResponseParser

/-! ## AssessmentResponseParser (src/lib/AssessmentResponseParser.ts) -/

namespace AssessmentResponseParser

/-- Parser state: `private data: AssessmentResponse | null = null` (the
unset field and a parsed JSON `null` are both the JS value `null`) and
`private rawJson`. -/
structure State where
  data : JVal := .jnull
  rawJson : String := ""

/-- A freshly constructed parser. -/
def State.init : State := {}

/-- The four required category keys (lines 87-92). -/
def requiredScores : List String :=
  ["strategic_alignment", "authenticity_and_evidence",
   "clarity_and_specificity", "risk_awareness"]

/-- `validate()` (lines 68-114): a bare boolean verdict, false at the first
violation; no error list is produced and nothing is thrown. -/
def validate (d : JVal) : Bool :=
  if d.truthy = false then false
  else if isObjArrOpt (d.getProp "scores") = false then false
  else if isNumOpt (d.getProp "overall_score") = false then false
  else if isObjArrOpt (d.getProp "rationale") = false then false
  else
    let scores := (d.getProp "scores").getD .jnull
    let rationale := (d.getProp "rationale").getD .jnull
    requiredScores.all (fun k => isNumOpt (scores.getProp k)) &&
      requiredScores.all (fun k => isStrOpt (rationale.getProp k))

/-- `loadFromString(jsonString)` (lines 47-55).  `parsed` is the outcome of
`JSON.parse(jsonString)` (`Except.error` = parse throw); `rawJson` is
assigned before the parse, so it is updated even when parsing throws, while
`data` then keeps its previous value. -/
def loadFromString (st : State) (jsonString : String) (parsed : Except String JVal) :
    State × Bool :=
  match parsed with
  | .ok v => ({ st with rawJson := jsonString, data := v }, validate v)
  | .error _ => ({ st with rawJson := jsonString }, false)

/-- `loadFromObject(data)` (lines 60-63): stores the record unchanged. -/
def loadFromObject (st : State) (d : JVal) : State :=
  { st with data := d, rawJson := "" }

/-- `isLoaded()` (lines 347-349): `this.data !== null`. -/
def isLoaded (st : State) : Bool :=
  !jsIsNull st.data

/-- `getData()` (lines 369-371): the record (or `null`) as-is. -/
def getData (st : State) : JVal :=
  st.data

/-- `getOverallScore()` (lines 119-121): `this.data?.overall_score || 0`. -/
def getOverallScore (st : State) : JVal :=
  jsOrDefault (optChain st.data "overall_score") (.jnum 0)

/-- Keys already seen are skipped: `Object.entries` of a JS object lists
each key once, with the first occurrence of a key in the association list
being the observable value. -/
def dedupKeys (seen : List String) : List (String × JVal) → List (String × JVal)
  | [] => []
  | (k, v) :: rest =>
    if k ∈ seen then dedupKeys seen rest
    else (k, v) :: dedupKeys (k :: seen) rest

/-- `Object.entries(v)`: own enumerable entries in insertion order (index
entries first for an array).  `Object.entries` of `null`/`undefined` throws
in JS; the claims below only reach this on object-valued input, and the
primitive cases yield `[]` like their boxed objects. -/
def jsEntries : JVal → List (String × JVal)
  | .jobj ps => dedupKeys [] ps
  | .jarr es ps => (es.enum.map fun p => (toString p.1, p.2)) ++ dedupKeys [] ps
  | _ => []

/-- The numeric value of a score entry; `none` for a non-number (whose JS
arithmetic would produce NaN — such inputs are outside the claims below). -/
def scoreNum : JVal → Option Int
  | .jnum n => some n
  | _ => none

/-- Stable insertion for the descending sort `(a, b) => b.score - a.score`:
an element is placed before the first strictly-smaller score; equal (or
non-numeric, NaN-comparing) scores keep their original order. -/
def insertDesc (x : String × JVal) : List (String × JVal) → List (String × JVal)
  | [] => [x]
  | y :: ys =>
    match scoreNum x.2, scoreNum y.2 with
    | some a, some b => if b < a then x :: y :: ys else y :: insertDesc x ys
    | _, _ => y :: insertDesc x ys

/-- Stable descending sort by score (JS `Array.prototype.sort` is stable). -/
def sortDescByScore (l : List (String × JVal)) : List (String × JVal) :=
  l.foldl (fun acc x => insertDesc x acc) []

/-- Stable insertion for the ascending sort `(a, b) => a.score - b.score`. -/
def insertAsc (x : String × JVal) : List (String × JVal) → List (String × JVal)
  | [] => [x]
  | y :: ys =>
    match scoreNum x.2, scoreNum y.2 with
    | some a, some b => if a < b then x :: y :: ys else y :: insertAsc x ys
    | _, _ => y :: insertAsc x ys

/-- Stable ascending sort by score. -/
def sortAscByScore (l : List (String × JVal)) : List (String × JVal) :=
  l.foldl (fun acc x => insertAsc x acc) []

/-- `getScoreRanking()` (lines 217-223): `[]` when no record is loaded,
else the score entries sorted descending. -/
def getScoreRanking (st : State) : List (String × JVal) :=
  if st.data.truthy = false then []
  else sortDescByScore (jsEntries ((st.data.getProp "scores").getD .jnull))

/-- `getCategoriesNeedingImprovement()` (lines 228-238): entries with
`score < 60` (false for a non-number, as `NaN < 60` is false), ascending. -/
def getCategoriesNeedingImprovement (st : State) : List (String × JVal) :=
  if st.data.truthy = false then []
  else
    sortAscByScore ((jsEntries ((st.data.getProp "scores").getD .jnull)).filter
      fun p => match scoreNum p.2 with
        | some n => n < 60
        | none => false)

/-- `getBestCategory()` (lines 243-246). -/
def getBestCategory (st : State) : Option (String × JVal) :=
  (getScoreRanking st).head?

/-- `getWorstCategory()` (lines 251-254). -/
def getWorstCategory (st : State) : Option (String × JVal) :=
  (getScoreRanking st).getLast?

/-- `calculateGrade(averageScore)` (lines 196-210). -/
def calculateGrade (averageScore : Rat) : String :=
  if averageScore ≥ 90 then "A+"
  else if averageScore ≥ 85 then "A"
  else if averageScore ≥ 80 then "A-"
  else if averageScore ≥ 75 then "B+"
  else if averageScore ≥ 70 then "B"
  else if averageScore ≥ 65 then "B-"
  else if averageScore ≥ 60 then "C+"
  else if averageScore ≥ 55 then "C"
  else if averageScore ≥ 50 then "C-"
  else if averageScore ≥ 45 then "D+"
  else if averageScore ≥ 40 then "D"
  else if averageScore ≥ 35 then "D-"
  else "F"

/-- The `AssessmentAnalysis` result record of `getAnalysis`. -/
structure AssessmentAnalysis where
  totalScore : Int
  averageScore : Rat
  highestScore : Int
  lowestScore : Int
  scoreRanking : List (String × JVal)
  grade : String

/-- `getAnalysis()` (lines 154-191): the all-zero record with grade `F`
when no record is loaded; otherwise the totals, average, extrema, ranking
and grade of the score entries.  `none` marks the NaN/Infinity-tainted
outcomes (a non-numeric score or an empty score object) that the integer
model does not represent; no claim below exercises them. -/
def getAnalysis (st : State) : Option AssessmentAnalysis :=
  if st.data.truthy = false then
    some ⟨0, 0, 0, 0, [], "F"⟩
  else
    let entries := jsEntries ((st.data.getProp "scores").getD .jnull)
    match (entries.map Prod.snd).mapM scoreNum with
    | none => none
    | some ns =>
      match ns.max?, ns.min? with
      | some hi, some lo =>
        let total : Int := ns.sum
        let avg : Rat := (total : Rat) / (ns.length : Rat)
        some ⟨total, avg, hi, lo, sortDescByScore entries, calculateGrade avg⟩
      | _, _ => none

/-- `loadFromObject`/`loadFromString` store the parsed record unchanged:
the assessment family applies no coercion, so its normalization step is the
identity on the stored record. -/
def normalizeStep (d : JVal) : JVal := d

end AssessmentResponseParser

/-! ## CritiqueResponseParser (src/unnamed/part_004). -/

namespace CritiqueResponseParser

/-- The per-point loop of `validate` (lines 74-79): `!point.category` is a
property read on the element, so a `null` element throws a TypeError
(modelled `none`, like the other TypeErrors in this file); for a non-null
element the reads are safe and a falsy `category`/`critique`/
`challenge_question` returns false. -/
def validatePoints : List JVal → Option Bool
  | [] => some true
  | p :: rest =>
    match p with
    | .jnull => none
    | _ =>
      if !(truthyOpt (p.getProp "category") && truthyOpt (p.getProp "critique") &&
          truthyOpt (p.getProp "challenge_question")) then some false
      else validatePoints rest

/-- `validate()` (lines 57-82): a bare boolean verdict, false at the first
violation, with no error list — but the per-point loop reads properties of
each `critique_points` element, so a `null` element makes `validate` throw
a TypeError (`none`). -/
def validate (d : JVal) : Option Bool :=
  if d.truthy = false then some false
  else if !(truthyOpt (d.getProp "overall_summary") &&
      isStrOpt (d.getProp "overall_summary")) then some false
  else if isArrOpt (d.getProp "critique_points") = false then some false
  else
    match d.getProp "critique_points" with
    | some (.jarr es _) => validatePoints es
    | _ => some true   -- unreachable: critique_points checked to be an array above

/-- `loadFromObject`/`loadFromString` store the parsed record unchanged:
the critique family applies no coercion, so its normalization step is the
identity on the stored record. -/
def normalizeStep (d : JVal) : JVal := d

end CritiqueResponseParser

/-! ## HistoryManager (src/api/apiClient.ts lines 589-830)

Durable storage is modelled as `Option HistoryData` (`none` = no or corrupt
persisted blob).  Entry ids (`Date.now() + random`) and timestamps are
supplied as parameters. -/

/-- `{...old, ...upd}`: spread merge over association lists; keys of `upd`
overwrite in place (in order), new keys are appended. -/
def spreadMerge (old upd : List (String × JVal)) : List (String × JVal) :=
  upd.foldl (fun acc kv => setAssoc acc kv.1 kv.2) old

namespace HistoryManager

/-- One persisted `HistoryEntry`. -/
structure HistoryEntry where
  id : String
  timestamp : String
  type : String                                   -- 'analysis' | 'ui'
  prompt : String
  title : String
  status : String                                 -- 'pending' | 'success' | 'error'
  error : Option String := none
  results : Option (List (String × JVal)) := none
  metadata : Option (List (String × JVal)) := none

/-- The persisted `HistoryData` blob. -/
structure HistoryData where
  entries : List HistoryEntry
  lastUpdated : String

/-- `MAX_ENTRIES` (line 634). -/
def MAX_ENTRIES : Nat := 100

/-- `getHistory()` (lines 639-661): a missing (or corrupt) blob yields an
empty store. -/
def getHistory (storage : Option HistoryData) (now : String) : HistoryData :=
  match storage with
  | none => ⟨[], now⟩
  | some d => ⟨d.entries, d.lastUpdated⟩

/-- `saveHistory(data)` (lines 666-678): `entries.slice(-MAX_ENTRIES)` when
over the cap (keeping the most recent entries), then stamp `lastUpdated`
and persist. -/
def saveHistory (d : HistoryData) (now : String) : HistoryData :=
  let entries :=
    if d.entries.length > MAX_ENTRIES then
      d.entries.drop (d.entries.length - MAX_ENTRIES)
    else d.entries
  ⟨entries, now⟩

/-- `/\s+/ -> ' '` collapse, one character at a time (`prevSpace` records
whether the previous kept character was the collapsed space). -/
def collapseWs (prevSpace : Bool) : List Char → List Char
  | [] => []
  | c :: cs =>
    if c.isWhitespace then
      if prevSpace then collapseWs true cs
      else ' ' :: collapseWs true cs
    else c :: collapseWs false cs

/-- `generateTitle(prompt)` (lines 683-687): trim, collapse whitespace
(`\n` is whitespace, so the two replaces amount to one collapse), truncate
at 50 characters with an ellipsis. -/
def generateTitle (prompt : String) : String :=
  let cleaned := String.mk (collapseWs false prompt.trim.data)
  if cleaned.length > 50 then (cleaned.take 50) ++ "..." else cleaned

/-- The `pending` entry `addEntry` constructs (lines 701-712). -/
def newEntry (type prompt : String) (hasFiles : Bool) (fileCount : Nat)
    (id now : String) : HistoryEntry :=
  { id := id, timestamp := now, type := type, prompt := prompt,
    title := generateTitle prompt, status := "pending",
    metadata := some [("hasFiles", .jbool hasFiles),
      ("fileCount", .jnum (fileCount : Int))] }

/-- `addEntry(type, prompt, hasFiles, fileCount)` (lines 692-718): append a
`pending` entry and persist. -/
def addEntry (storage : Option HistoryData) (type prompt : String)
    (hasFiles : Bool) (fileCount : Nat) (id now : String) : Option HistoryData :=
  let history := getHistory storage now
  some (saveHistory
    { history with
      entries := history.entries ++ [newEntry type prompt hasFiles fileCount id now] }
    now)

/-- `entries.findIndex(e => e.id === id)` followed by an in-place update of
that entry: `none` when no entry matches. -/
def updateFirstById (es : List HistoryEntry) (id : String)
    (f : HistoryEntry → HistoryEntry) : Option (List HistoryEntry) :=
  match es with
  | [] => none
  | e :: rest =>
    if e.id = id then some (f e :: rest)
    else (updateFirstById rest id f).map (e :: ·)

/-- `updateEntryStatus(id, status, error?, metadata?)` (lines 723-749):
found-by-id in-place merge, no-op (no persist) when the id is unknown.
`if (error)` is a truthiness test, so an empty error string is not
recorded. -/
def updateEntryStatus (storage : Option HistoryData) (id status : String)
    (error : Option String) (metadata : Option (List (String × JVal)))
    (now : String) : Option HistoryData :=
  let history := getHistory storage now
  match updateFirstById history.entries id (fun e =>
    let e := { e with status := status }
    let e := match error with
      | some err => if err.isEmpty then e else { e with error := some err }
      | none => e
    match metadata with
    | some md => { e with metadata := some (spreadMerge (e.metadata.getD []) md) }
    | none => e) with
  | some es => some (saveHistory { history with entries := es } now)
  | none => storage

/-- `updateEntryResults(id, results)` (lines 754-787): found-by-id shallow
spread merge `{...existing.results, ...results}` (spreading an absent
`results` gives `{}`), no-op (no persist) when the id is unknown. -/
def updateEntryResults (storage : Option HistoryData) (id : String)
    (results : List (String × JVal)) (now : String) : Option HistoryData :=
  let history := getHistory storage now
  match updateFirstById history.entries id (fun e =>
    { e with results := some (spreadMerge (e.results.getD []) results) }) with
  | some es => some (saveHistory { history with entries := es } now)
  | none => storage

/-- `deleteEntry(id)` (lines 792-796). -/
def deleteEntry (storage : Option HistoryData) (id now : String) : Option HistoryData :=
  let history := getHistory storage now
  some (saveHistory { history with entries := history.entries.filter (·.id ≠ id) } now)

/-- `clearHistory()` (lines 801-807). -/
def clearHistory (now : String) : Option HistoryData :=
  some (saveHistory ⟨[], now⟩ now)

/-- `getHistoryByType(type)` (lines 812-815): a pure filter, no mutation. -/
def getHistoryByType (storage : Option HistoryData) (type now : String) :
    List HistoryEntry :=
  (getHistory storage now).entries.filter (·.type = type)

/-- One mutating `HistoryManager` operation (the query operations are pure
and never touch storage). -/
inductive HOp where
  | add (type prompt : String) (hasFiles : Bool) (fileCount : Nat) (id now : String)
  | updStatus (id status : String) (error : Option String)
      (metadata : Option (List (String × JVal))) (now : String)
  | updResults (id : String) (results : List (String × JVal)) (now : String)
  | del (id now : String)
  | clear (now : String)

/-- The storage after one operation. -/
def stepOp (storage : Option HistoryData) : HOp → Option HistoryData
  | .add t p hf fc id now => addEntry storage t p hf fc id now
  | .updStatus id s e md now => updateEntryStatus storage id s e md now
  | .updResults id r now => updateEntryResults storage id r now
  | .del id now => deleteEntry storage id now
  | .clear now => clearHistory now

/-- The storage after a sequence of operations. -/
def runOps (storage : Option HistoryData) (ops : List HOp) : Option HistoryData :=
  ops.foldl stepOp storage

/-- The number of entries in the persisted store. -/
def storedCount (storage : Option HistoryData) : Nat :=
  match storage with
  | none => 0
  | some d => d.entries.length

end HistoryManager

/-! ## CacheManager (src/lib/cache.ts, src/unnamed/part_003)

Durable storage is modelled as `Option AppCache` (`none` = no persisted
value); the clock is a millisecond parameter `now`. -/

namespace CacheManager

/-- The `AppCache` snapshot. -/
structure AppCache where
  activeTab : String
  uiInput : String
  hasContent : Bool
  solutionArchitectMarkdown : String
  solutionArchitectData : JVal
  showHistory : Bool
  currentHistoryId : Option String
  analysisData : JVal
  analysisFormData : JVal
  lastUpdated : Nat

/-- `Partial<AppCache>`: the fields a `saveState` call supplies
(`lastUpdated`, if supplied, is overwritten by the save stamp). -/
structure AppCachePatch where
  activeTab : Option String := none
  uiInput : Option String := none
  hasContent : Option Bool := none
  solutionArchitectMarkdown : Option String := none
  solutionArchitectData : Option JVal := none
  showHistory : Option Bool := none
  currentHistoryId : Option (Option String) := none
  analysisData : Option JVal := none
  analysisFormData : Option JVal := none

/-- `CACHE_EXPIRY`: 24 hours in milliseconds (line 17). -/
def CACHE_EXPIRY : Nat := 24 * 60 * 60 * 1000

/-- `getDefaultState()` (lines 81-94). -/
def getDefaultState (now : Nat) : AppCache :=
  { activeTab := "analysis", uiInput := "", hasContent := false,
    solutionArchitectMarkdown := "", solutionArchitectData := .jnull,
    showHistory := false, currentHistoryId := none, analysisData := .jnull,
    analysisFormData := .jnull, lastUpdated := now }

/-- `clearCache()` (lines 69-76): `localStorage.removeItem`. -/
def clearCache : Option AppCache :=
  none

/-- `loadState()` (lines 42-64): the default when nothing is stored; clear
and return the default when `now - lastUpdated > CACHE_EXPIRY`; the stored
snapshot otherwise.  Returns the storage after the call and the result. -/
def loadState (storage : Option AppCache) (now : Nat) :
    Option AppCache × AppCache :=
  match storage with
  | none => (storage, getDefaultState now)
  | some c =>
    if now - c.lastUpdated > CACHE_EXPIRY then (clearCache, getDefaultState now)
    else (storage, c)

/-- `{...existingCache, ...state}`. -/
def applyPatch (c : AppCache) (p : AppCachePatch) : AppCache :=
  { activeTab := p.activeTab.getD c.activeTab,
    uiInput := p.uiInput.getD c.uiInput,
    hasContent := p.hasContent.getD c.hasContent,
    solutionArchitectMarkdown :=
      p.solutionArchitectMarkdown.getD c.solutionArchitectMarkdown,
    solutionArchitectData := p.solutionArchitectData.getD c.solutionArchitectData,
    showHistory := p.showHistory.getD c.showHistory,
    currentHistoryId := p.currentHistoryId.getD c.currentHistoryId,
    analysisData := p.analysisData.getD c.analysisData,
    analysisFormData := p.analysisFormData.getD c.analysisFormData,
    lastUpdated := c.lastUpdated }

/-- `saveState(state)` (lines 23-37): load (or default), merge the partial
fields on top, stamp `lastUpdated = Date.now()`, persist. -/
def saveState (storage : Option AppCache) (p : AppCachePatch) (now : Nat) :
    Option AppCache :=
  let existing := (loadState storage now).2
  some { applyPatch existing p with lastUpdated := now }

/-- `hasValidCache()` (lines 99-109). -/
def hasValidCache (storage : Option AppCache) (now : Nat) : Bool :=
  match storage with
  | none => false
  | some c => now - c.lastUpdated ≤ CACHE_EXPIRY

end CacheManager

/-- A concrete valid solution-architect response whose single approach
supplies only `key_benefits` (no `pros`) and whose comparison summary
supplies only `prioritization_matrix` (no `evaluation_table`). -/
def saAliasExample : JVal :=
  .jobj [
    ("problem_statement", .jstr "p"),
    ("solution_analysis", .jarr [
      .jobj [("approach_name", .jstr "A"), ("description", .jstr "d"),
             ("key_benefits", .jarr [.jstr "fast to ship"] [])]] []),
    ("comparison_summary", .jobj [
      ("prioritization_matrix", .jarr [] []),
      ("recommendation", .jstr "use A")])]

-- DEFS_END

/-! ## Supporting lemmas -/

theorem getAssoc_setAssoc_self (ps : List (String × JVal)) (k : String) (v : JVal) :
    getAssoc (setAssoc ps k v) k = some v := by
  induction ps with
  | nil => simp [getAssoc, setAssoc]
  | cons hd tl ih =>
    obtain ⟨k', w⟩ := hd
    by_cases h : k' = k
    · simp [getAssoc, setAssoc, h]
    · simp [getAssoc, setAssoc, h, ih]

theorem getAssoc_setAssoc_other (ps : List (String × JVal)) (k k' : String) (v : JVal)
    (h : k' ≠ k) : getAssoc (setAssoc ps k v) k' = getAssoc ps k' := by
  induction ps with
  | nil => simp [getAssoc, setAssoc, Ne.symm h]
  | cons hd tl ih =>
    obtain ⟨k₀, w⟩ := hd
    by_cases h0 : k₀ = k
    · subst h0
      simp [getAssoc, setAssoc, Ne.symm h]
    · by_cases h1 : k₀ = k'
      · subst h1
        simp [getAssoc, setAssoc, h, h0]
      · simp [getAssoc, setAssoc, h0, h1, ih]

theorem setAssoc_getAssoc_eq (ps : List (String × JVal)) (k : String) (v : JVal)
    (h : getAssoc ps k = some v) : setAssoc ps k v = ps := by
  induction ps with
  | nil => simp [getAssoc] at h
  | cons hd tl ih =>
    obtain ⟨k', w⟩ := hd
    by_cases h0 : k' = k
    · subst h0
      simp [getAssoc] at h
      simp [setAssoc, h]
    · simp [getAssoc, h0] at h
      simp [setAssoc, h0, ih h]

theorem getProp_setProp_self {d d' : JVal} {k : String} {v : JVal}
    (h : d.setProp k v = some d') : d'.getProp k = some v := by
  cases d <;> simp [setProp] at h <;>
    (subst h; simp [getProp, getAssoc_setAssoc_self])

theorem getProp_setProp_other {d d' : JVal} {k k' : String} {v : JVal}
    (h : d.setProp k v = some d') (hk : k' ≠ k) : d'.getProp k' = d.getProp k' := by
  cases d <;> simp [setProp] at h <;>
    (subst h; simp [getProp, getAssoc_setAssoc_other _ _ _ _ hk])

theorem setProp_getProp_eq {d : JVal} {k : String} {v : JVal}
    (hobj : d.isObjArr = true) (h : d.getProp k = some v) : d.setProp k v = some d := by
  cases d <;> simp [isObjArr] at hobj <;>
    simp_all [getProp, setProp, setAssoc_getAssoc_eq]

theorem isObjArr_setProp {d d' : JVal} {k : String} {v : JVal}
    (h : d.setProp k v = some d') : d'.isObjArr = true := by
  cases d <;> simp [setProp] at h <;> (subst h; simp [isObjArr])

theorem isObjArr_of_getProp_some {d : JVal} {k : String} {v : JVal}
    (h : d.getProp k = some v) : d.isObjArr = true := by
  cases d <;> simp_all [getProp, isObjArr]

theorem truthy_of_isObjArr {d : JVal} (h : d.isObjArr = true) : d.truthy = true := by
  cases d <;> simp_all [isObjArr, truthy]

namespace ProductAnalysisReader

theorem FalsyFieldOk_congr {a b : JVal} {k : String} (h : b.getProp k = a.getProp k)
    (hok : FalsyFieldOk a k) : FalsyFieldOk b k := by
  unfold FalsyFieldOk at *
  rw [h]
  exact hok

theorem ArrFieldOk_congr {a b : JVal} {k : String} (h : b.getProp k = a.getProp k)
    (hok : ArrFieldOk a k) : ArrFieldOk b k := by
  unfold ArrFieldOk at *
  rw [h]
  exact hok

theorem UpgOk_congr {a b : JVal}
    (h : b.getProp "user_problem_goal" = a.getProp "user_problem_goal")
    (hok : UpgOk a) : UpgOk b := by
  unfold UpgOk at *
  rw [h]
  exact hok

theorem ScopeOk_congr {a b : JVal} (h : b.getProp "scope" = a.getProp "scope")
    (hok : ScopeOk a) : ScopeOk b := by
  unfold ScopeOk at *
  rw [h]
  exact hok

theorem coerceFalsyField_post {d d' : JVal} {k : String}
    (h : coerceFalsyField d k (.jstr "") = some d') : FalsyFieldOk d' k := by
  by_cases ht : truthyOpt (d.getProp k) = true <;> simp [coerceFalsyField, ht] at h
  · subst h
    exact Or.inl ht
  · exact Or.inr (getProp_setProp_self h)

theorem coerceFalsyField_frame {d d' : JVal} {k k' : String} {dflt : JVal}
    (h : coerceFalsyField d k dflt = some d') (hk : k' ≠ k) :
    d'.getProp k' = d.getProp k' := by
  by_cases ht : truthyOpt (d.getProp k) = true <;> simp [coerceFalsyField, ht] at h
  · subst h
    rfl
  · exact getProp_setProp_other h hk

theorem coerceFalsyField_stable {e : JVal} {k : String} (hobj : e.isObjArr = true)
    (hok : FalsyFieldOk e k) : coerceFalsyField e k (.jstr "") = some e := by
  rcases hok with ht | hv
  · simp [coerceFalsyField, ht]
  · have hf : truthyOpt (e.getProp k) = false := by
      rw [hv]
      rfl
    simp [coerceFalsyField, hf]
    exact setProp_getProp_eq hobj hv

theorem coerceArrayProp_post {o o' : JVal} {k : String}
    (h : coerceArrayProp o k = some o') : ArrFieldOk o' k ∧ o'.isObjArr = true := by
  unfold coerceArrayProp at h
  cases hg : o.getProp k with
  | none =>
    rw [hg] at h
    exact ⟨⟨[], [], getProp_setProp_self h⟩, isObjArr_setProp h⟩
  | some v =>
    rw [hg] at h
    by_cases ha : v.isArray = true
    · simp [ha] at h
      subst h
      match v, ha with
      | .jarr es ps, _ => exact ⟨⟨es, ps, hg⟩, isObjArr_of_getProp_some hg⟩
    · simp [ha] at h
      by_cases ht : v.truthy = true <;> simp [ht] at h
      · exact ⟨⟨[v], [], getProp_setProp_self h⟩, isObjArr_setProp h⟩
      · exact ⟨⟨[], [], getProp_setProp_self h⟩, isObjArr_setProp h⟩

theorem coerceArrayProp_frame {o o' : JVal} {k k' : String}
    (h : coerceArrayProp o k = some o') (hk : k' ≠ k) :
    o'.getProp k' = o.getProp k' := by
  unfold coerceArrayProp at h
  cases hg : o.getProp k with
  | none =>
    rw [hg] at h
    exact getProp_setProp_other h hk
  | some v =>
    rw [hg] at h
    by_cases ha : v.isArray = true
    · simp [ha] at h
      subst h
      rfl
    · simp [ha] at h
      exact getProp_setProp_other h hk

theorem coerceArrayProp_stable {o : JVal} {k : String} (hok : ArrFieldOk o k) :
    coerceArrayProp o k = some o := by
  obtain ⟨es, ps, hg⟩ := hok
  simp [coerceArrayProp, hg, isArray]

theorem coerceFalsySub_post {v v' : JVal} {k : String}
    (h : coerceFalsySub v k = some v') :
    (truthyOpt (v'.getProp k) = true ∨ v'.getProp k = some (.jstr "")) ∧
      v'.isObjArr = true := by
  by_cases ht : truthyOpt (v.getProp k) = true <;> simp [coerceFalsySub, ht] at h
  · subst h
    refine ⟨Or.inl ht, ?_⟩
    cases hg : v.getProp k with
    | none => rw [hg] at ht; simp [truthyOpt] at ht
    | some w => exact isObjArr_of_getProp_some hg
  · exact ⟨Or.inr (getProp_setProp_self h), isObjArr_setProp h⟩

theorem coerceFalsySub_frame {v v' : JVal} {k k' : String}
    (h : coerceFalsySub v k = some v') (hk : k' ≠ k) :
    v'.getProp k' = v.getProp k' := by
  by_cases ht : truthyOpt (v.getProp k) = true <;> simp [coerceFalsySub, ht] at h
  · subst h
    rfl
  · exact getProp_setProp_other h hk

theorem coerceFalsySub_stable {v : JVal} {k : String} (hobj : v.isObjArr = true)
    (hok : truthyOpt (v.getProp k) = true ∨ v.getProp k = some (.jstr "")) :
    coerceFalsySub v k = some v := by
  rcases hok with ht | hv
  · simp [coerceFalsySub, ht]
  · have hf : truthyOpt (v.getProp k) = false := by
      rw [hv]
      rfl
    simp [coerceFalsySub, hf]
    exact setProp_getProp_eq hobj hv

theorem defaultUserProblemGoal_ok :
    defaultUserProblemGoal.isObjArr = true ∧
      defaultUserProblemGoal.getProp "problem" = some (.jstr "") ∧
      defaultUserProblemGoal.getProp "user_goal" = some (.jstr "") := by
  refine ⟨rfl, ?_, ?_⟩ <;> simp [defaultUserProblemGoal, getProp, getAssoc]

theorem normUserProblemGoal_post {d d' : JVal}
    (h : normUserProblemGoal d = some d') : UpgOk d' := by
  unfold normUserProblemGoal at h
  cases hg : d.getProp "user_problem_goal" with
  | none =>
    rw [hg] at h
    exact ⟨defaultUserProblemGoal, getProp_setProp_self h,
      defaultUserProblemGoal_ok.1, Or.inr defaultUserProblemGoal_ok.2.1,
      Or.inr defaultUserProblemGoal_ok.2.2⟩
  | some upg =>
    rw [hg] at h
    by_cases ht : upg.truthy = true <;> simp [ht] at h
    · obtain ⟨u1, h1, h2⟩ := Option.bind_eq_some.mp h
      obtain ⟨u2, h3, h4⟩ := Option.bind_eq_some.mp h2
      obtain ⟨hp1, _⟩ := coerceFalsySub_post h1
      obtain ⟨hu2, hobj2⟩ := coerceFalsySub_post h3
      have hfr : u2.getProp "problem" = u1.getProp "problem" :=
        coerceFalsySub_frame h3 (by decide)
      exact ⟨u2, getProp_setProp_self h4, hobj2,
        by rw [hfr]; exact hp1, hu2⟩
    · exact ⟨defaultUserProblemGoal, getProp_setProp_self h,
        defaultUserProblemGoal_ok.1, Or.inr defaultUserProblemGoal_ok.2.1,
        Or.inr defaultUserProblemGoal_ok.2.2⟩

theorem normUserProblemGoal_frame {d d' : JVal} {k' : String}
    (h : normUserProblemGoal d = some d') (hk : k' ≠ "user_problem_goal") :
    d'.getProp k' = d.getProp k' := by
  unfold normUserProblemGoal at h
  cases hg : d.getProp "user_problem_goal" with
  | none =>
    rw [hg] at h
    exact getProp_setProp_other h hk
  | some upg =>
    rw [hg] at h
    by_cases ht : upg.truthy = true <;> simp [ht] at h
    · obtain ⟨u1, h1, h2⟩ := Option.bind_eq_some.mp h
      obtain ⟨u2, h3, h4⟩ := Option.bind_eq_some.mp h2
      exact getProp_setProp_other h4 hk
    · exact getProp_setProp_other h hk

theorem normUserProblemGoal_stable {d : JVal} (hobj : d.isObjArr = true)
    (hok : UpgOk d) : normUserProblemGoal d = some d := by
  obtain ⟨upg, hg, hobj2, hp, hu⟩ := hok
  unfold normUserProblemGoal
  rw [hg]
  simp [truthy_of_isObjArr hobj2, coerceFalsySub_stable hobj2 hp,
    coerceFalsySub_stable hobj2 hu]
  exact setProp_getProp_eq hobj hg

theorem defaultScope_ok :
    defaultScope.isObjArr = true ∧ ArrFieldOk defaultScope "in_scope" ∧
      ArrFieldOk defaultScope "out_scope" ∧ ArrFieldOk defaultScope "constraints" := by
  refine ⟨rfl, ⟨[], [], ?_⟩, ⟨[], [], ?_⟩, ⟨[], [], ?_⟩⟩ <;>
    simp [defaultScope, getProp, getAssoc]

theorem normScope_post {d d' : JVal} (h : normScope d = some d') : ScopeOk d' := by
  unfold normScope at h
  cases hg : d.getProp "scope" with
  | none =>
    rw [hg] at h
    exact ⟨defaultScope, getProp_setProp_self h, defaultScope_ok.1,
      defaultScope_ok.2.1, defaultScope_ok.2.2.1, defaultScope_ok.2.2.2⟩
  | some sc =>
    rw [hg] at h
    by_cases ht : sc.truthy = true <;> simp [ht] at h
    · obtain ⟨s1, h1, h2⟩ := Option.bind_eq_some.mp h
      obtain ⟨s2, h3, h4⟩ := Option.bind_eq_some.mp h2
      obtain ⟨s3, h5, h6⟩ := Option.bind_eq_some.mp h4
      obtain ⟨ha1, _⟩ := coerceArrayProp_post h1
      obtain ⟨ha2, _⟩ := coerceArrayProp_post h3
      obtain ⟨ha3, hobj3⟩ := coerceArrayProp_post h5
      have f2 : s2.getProp "in_scope" = s1.getProp "in_scope" :=
        coerceArrayProp_frame h3 (by decide)
      have f3 : s3.getProp "in_scope" = s2.getProp "in_scope" :=
        coerceArrayProp_frame h5 (by decide)
      have f4 : s3.getProp "out_scope" = s2.getProp "out_scope" :=
        coerceArrayProp_frame h5 (by decide)
      exact ⟨s3, getProp_setProp_self h6, hobj3,
        ArrFieldOk_congr (f3.trans f2) ha1, ArrFieldOk_congr f4 ha2, ha3⟩
    · exact ⟨defaultScope, getProp_setProp_self h, defaultScope_ok.1,
        defaultScope_ok.2.1, defaultScope_ok.2.2.1, defaultScope_ok.2.2.2⟩

theorem normScope_frame {d d' : JVal} {k' : String}
    (h : normScope d = some d') (hk : k' ≠ "scope") :
    d'.getProp k' = d.getProp k' := by
  unfold normScope at h
  cases hg : d.getProp "scope" with
  | none =>
    rw [hg] at h
    exact getProp_setProp_other h hk
  | some sc =>
    rw [hg] at h
    by_cases ht : sc.truthy = true <;> simp [ht] at h
    · obtain ⟨s1, h1, h2⟩ := Option.bind_eq_some.mp h
      obtain ⟨s2, h3, h4⟩ := Option.bind_eq_some.mp h2
      obtain ⟨s3, h5, h6⟩ := Option.bind_eq_some.mp h4
      exact getProp_setProp_other h6 hk
    · exact getProp_setProp_other h hk

theorem normScope_stable {d : JVal} (hobj : d.isObjArr = true)
    (hok : ScopeOk d) : normScope d = some d := by
  obtain ⟨sc, hg, hobj2, h1, h2, h3⟩ := hok
  unfold normScope
  rw [hg]
  simp [truthy_of_isObjArr hobj2, coerceArrayProp_stable h1,
    coerceArrayProp_stable h2, coerceArrayProp_stable h3]
  exact setProp_getProp_eq hobj hg

end ProductAnalysisReader

namespace ProductAnalysisReader

theorem normalizeData_post {d e : JVal} (h : normalizeData d = some e) :
    NormalizedRec e := by
  unfold normalizeData at h
  by_cases hd : d.truthy = false
  · simp [hd] at h
    subst h
    exact Or.inl hd
  · simp [hd] at h
    obtain ⟨d1, h1, hr⟩ := Option.bind_eq_some.mp h
    obtain ⟨d2, h2, hr⟩ := Option.bind_eq_some.mp hr
    obtain ⟨d3, h3, hr⟩ := Option.bind_eq_some.mp hr
    obtain ⟨d4, h4, hr⟩ := Option.bind_eq_some.mp hr
    obtain ⟨d5, h5, hr⟩ := Option.bind_eq_some.mp hr
    obtain ⟨d6, h6, hr⟩ := Option.bind_eq_some.mp hr
    obtain ⟨d7, h7, h8⟩ := Option.bind_eq_some.mp hr
    have f8 : ∀ k' : String, k' ≠ "success_metrics" → e.getProp k' = d7.getProp k' :=
      fun _ hk => coerceArrayProp_frame h8 hk
    have f7 : ∀ k' : String, k' ≠ "scope" → d7.getProp k' = d6.getProp k' :=
      fun _ hk => normScope_frame h7 hk
    have f6 : ∀ k' : String, k' ≠ "user_insights_data" →
        d6.getProp k' = d5.getProp k' :=
      fun _ hk => coerceArrayProp_frame h6 hk
    have f5 : ∀ k' : String, k' ≠ "target_segments" → d5.getProp k' = d4.getProp k' :=
      fun _ hk => coerceArrayProp_frame h5 hk
    have f4 : ∀ k' : String, k' ≠ "key_assumptions_open_questions" →
        d4.getProp k' = d3.getProp k' :=
      fun _ hk => coerceFalsyField_frame h4 hk
    have f3 : ∀ k' : String, k' ≠ "user_problem_goal" →
        d3.getProp k' = d2.getProp k' :=
      fun _ hk => normUserProblemGoal_frame h3 hk
    have f2 : ∀ k' : String, k' ≠ "business_goal" → d2.getProp k' = d1.getProp k' :=
      fun _ hk => coerceFalsyField_frame h2 hk
    have hpg : e.getProp "product_goal" = d1.getProp "product_goal" := by
      rw [f8 _ (by decide), f7 _ (by decide), f6 _ (by decide), f5 _ (by decide),
        f4 _ (by decide), f3 _ (by decide), f2 _ (by decide)]
    have hbg : e.getProp "business_goal" = d2.getProp "business_goal" := by
      rw [f8 _ (by decide), f7 _ (by decide), f6 _ (by decide), f5 _ (by decide),
        f4 _ (by decide), f3 _ (by decide)]
    have hupg : e.getProp "user_problem_goal" = d3.getProp "user_problem_goal" := by
      rw [f8 _ (by decide), f7 _ (by decide), f6 _ (by decide), f5 _ (by decide),
        f4 _ (by decide)]
    have hka : e.getProp "key_assumptions_open_questions" =
        d4.getProp "key_assumptions_open_questions" := by
      rw [f8 _ (by decide), f7 _ (by decide), f6 _ (by decide), f5 _ (by decide)]
    have hts : e.getProp "target_segments" = d5.getProp "target_segments" := by
      rw [f8 _ (by decide), f7 _ (by decide), f6 _ (by decide)]
    have hui : e.getProp "user_insights_data" = d6.getProp "user_insights_data" := by
      rw [f8 _ (by decide), f7 _ (by decide)]
    have hsc : e.getProp "scope" = d7.getProp "scope" := f8 _ (by decide)
    exact Or.inr ⟨(coerceArrayProp_post h8).2,
      FalsyFieldOk_congr hpg (coerceFalsyField_post h1),
      FalsyFieldOk_congr hbg (coerceFalsyField_post h2),
      UpgOk_congr hupg (normUserProblemGoal_post h3),
      FalsyFieldOk_congr hka (coerceFalsyField_post h4),
      ArrFieldOk_congr hts (coerceArrayProp_post h5).1,
      ArrFieldOk_congr hui (coerceArrayProp_post h6).1,
      ScopeOk_congr hsc (normScope_post h7),
      (coerceArrayProp_post h8).1⟩

theorem normalizeData_stable {e : JVal} (hn : NormalizedRec e) :
    normalizeData e = some e := by
  unfold normalizeData
  rcases hn with hf | ⟨hobj, h1, h2, h3, h4, h5, h6, h7, h8⟩
  · simp [hf]
  · simp [truthy_of_isObjArr hobj, coerceFalsyField_stable hobj h1,
      coerceFalsyField_stable hobj h2, normUserProblemGoal_stable hobj h3,
      coerceFalsyField_stable hobj h4, coerceArrayProp_stable h5,
      coerceArrayProp_stable h6, normScope_stable hobj h7,
      coerceArrayProp_stable h8]

end ProductAnalysisReader

/-! ## Claim theorems -/

/-- Claim C3: for every ResponseNormalizer family (analysis, critique,
assessment, solution-architect) and every input, normalization is
idempotent: applying the normalization step to an already-normalized record
yields the same record.  For the analysis family this is
`normalizeData (normalizeData x) = normalizeData x` (composed through the
throw-propagating bind); the other three families store the record without
coercion, so their normalization step is the identity. -/
theorem claim_C3_normalization_idempotent (x : JVal) :
    (ProductAnalysisReader.normalizeData x).bind ProductAnalysisReader.normalizeData
        = ProductAnalysisReader.normalizeData x ∧
    CritiqueResponseParser.normalizeStep (CritiqueResponseParser.normalizeStep x)
        = CritiqueResponseParser.normalizeStep x ∧
    AssessmentResponseParser.normalizeStep (AssessmentResponseParser.normalizeStep x)
        = AssessmentResponseParser.normalizeStep x ∧
    SolutionArchitectResponseParser.normalizeStep
        (SolutionArchitectResponseParser.normalizeStep x)
        = SolutionArchitectResponseParser.normalizeStep x := by
  refine ⟨?_, rfl, rfl, rfl⟩
  cases hx : ProductAnalysisReader.normalizeData x with
  | none => rfl
  | some e =>
    simp only [Option.some_bind]
    exact ProductAnalysisReader.normalizeData_stable
      (ProductAnalysisReader.normalizeData_post hx)

theorem withRetryGo_allfail (op : Nat → AttemptOutcome)
    (hfail : ∀ i, 1 ≤ i → i ≤ maxRetries + 1 → failedAttempt (op i) = true) :
    ∀ k, k ≤ maxRetries → ∀ le,
      withRetryGo op (maxRetries + 1 - k) le =
        ⟨finalFailureEnv (op (maxRetries + 1)), k + 1, List.replicate k retryDelay⟩ := by
  intro k
  induction k with
  | zero =>
    intro _ le
    rw [Nat.sub_zero]
    have hf := hfail (maxRetries + 1) (by omega) (by omega)
    cases ho : op (maxRetries + 1) with
    | resolves env =>
      rw [ho] at hf
      unfold withRetryGo
      rw [ho]
      have hcond : ¬(env.success = false ∧ maxRetries + 1 ≤ maxRetries) :=
        fun hc => absurd hc.2 (by omega)
      simp [dif_neg hcond, finalFailureEnv]
    | throws m =>
      unfold withRetryGo
      rw [ho]
      have hcond : ¬(maxRetries + 1 ≤ maxRetries) := by omega
      simp [dif_neg hcond, finalFailureEnv]
  | succ n ih =>
    intro hk le
    have hf := hfail (maxRetries + 1 - (n + 1)) (by omega) (by omega)
    have harith : maxRetries + 1 - (n + 1) + 1 = maxRetries + 1 - n := by omega
    cases ho : op (maxRetries + 1 - (n + 1)) with
    | resolves env =>
      rw [ho] at hf
      simp only [failedAttempt, Bool.not_eq_true'] at hf
      unfold withRetryGo
      rw [ho]
      have hcond : env.success = false ∧ maxRetries + 1 - (n + 1) ≤ maxRetries :=
        ⟨hf, by omega⟩
      simp only [dif_pos hcond]
      rw [harith, ih (by omega) le]
      simp [List.replicate_succ]
    | throws m =>
      unfold withRetryGo
      rw [ho]
      have hcond : maxRetries + 1 - (n + 1) ≤ maxRetries := by omega
      simp only [dif_pos hcond]
      rw [harith, ih (by omega) (some m)]
      simp [List.replicate_succ]

/-- Claim C1: if every attempt of the retrying layer fails (the operation
throws or resolves to `success: false` on each of the six attempts), then
exactly 6 attempts are made (`maxRetries = 5` plus the initial one), a
fixed 1000 ms delay precedes each of the 5 retries, and the call resolves
— never throws (`withRetry` is a total function into `RetryTrace`) — to an
envelope with `success: false` whose `error` is the message of the last
failure (for a final resolved failure, that envelope's own `error`). -/
theorem claim_C1_retry_exhaustion (op : Nat → AttemptOutcome)
    (hfail : ∀ i, 1 ≤ i → i ≤ 6 → failedAttempt (op i) = true) :
    (withRetry op).attemptsMade = 6 ∧
    (withRetry op).delays = List.replicate 5 1000 ∧
    (withRetry op).result.success = false ∧
    (withRetry op).result.error = lastFailureError (op 6) := by
  have h := withRetryGo_allfail op (fun i h1 h2 => hfail i h1 h2) maxRetries
    (le_refl _) none
  rw [show maxRetries + 1 - maxRetries = 1 from rfl] at h
  unfold withRetry
  rw [h]
  have hf : failedAttempt (op (maxRetries + 1)) = true := hfail 6 (by omega) (by omega)
  refine ⟨rfl, rfl, ?_, ?_⟩
  · show (finalFailureEnv (op (maxRetries + 1))).success = false
    cases ho : op (maxRetries + 1) with
    | resolves env =>
      rw [ho] at hf
      simp only [failedAttempt, Bool.not_eq_true'] at hf
      simpa [finalFailureEnv] using hf
    | throws m => simp [finalFailureEnv]
  · show (finalFailureEnv (op (maxRetries + 1))).error
        = lastFailureError (op (maxRetries + 1))
    cases ho : op (maxRetries + 1) with
    | resolves env => simp [finalFailureEnv, lastFailureError]
    | throws m => simp [finalFailureEnv, lastFailureError, stringOfLastError]

/-- Witness for C1: an operation whose every attempt throws exhausts all 6
attempts, waits 5 × 1000 ms, and resolves to the failure envelope carrying
the last thrown message. -/
theorem claim_C1_witness :
    (withRetry (fun i => .throws ("network error " ++ toString i))).attemptsMade = 6 ∧
    (withRetry (fun i => .throws ("network error " ++ toString i))).delays
      = List.replicate 5 1000 ∧
    (withRetry (fun i => .throws ("network error " ++ toString i))).result.success
      = false ∧
    (withRetry (fun i => .throws ("network error " ++ toString i))).result.error
      = lastFailureError (.throws ("network error " ++ toString 6)) :=
  claim_C1_retry_exhaustion _ (fun _ _ _ => rfl)

theorem envInv_of (e : APIResponse)
    (h1 : e.success = true → e.data.isSome = true ∧ e.error = none)
    (h2 : e.success = false → e.error.isSome = true ∧ e.data = none) : envInv e :=
  And.intro h1 h2

theorem postJSONOperation_envInv (f : FetchOutcome) : envInv (postJSONOperation f) := by
  cases f with
  | fthrows m => exact envInv_of _ (fun h => nomatch h) (fun _ => ⟨rfl, rfl⟩)
  | fresp ok status statusText body =>
    cases ok with
    | false => exact envInv_of _ (fun h => nomatch h) (fun _ => ⟨rfl, rfl⟩)
    | true =>
      cases body with
      | error m => exact envInv_of _ (fun h => nomatch h) (fun _ => ⟨rfl, rfl⟩)
      | ok v => exact envInv_of _ (fun _ => ⟨rfl, rfl⟩) (fun h => nomatch h)

theorem withRetryGo_envInv (op : Nat → AttemptOutcome)
    (hop : ∀ i env, op i = .resolves env → envInv env) (n : Nat) :
    ∀ attempt le, maxRetries + 1 - attempt ≤ n →
      envInv (withRetryGo op attempt le).result := by
  induction n with
  | zero =>
    intro attempt le hle
    cases ho : op attempt with
    | resolves env =>
      unfold withRetryGo
      rw [ho]
      have hcond : ¬(env.success = false ∧ attempt ≤ maxRetries) :=
        fun hc => absurd hc.2 (by omega)
      simp only [dif_neg hcond]
      exact hop attempt env ho
    | throws m =>
      unfold withRetryGo
      rw [ho]
      have hcond : ¬(attempt ≤ maxRetries) := by omega
      simp only [dif_neg hcond]
      exact envInv_of _ (fun h => nomatch h) (fun _ => ⟨rfl, rfl⟩)
  | succ k ih =>
    intro attempt le hle
    cases ho : op attempt with
    | resolves env =>
      by_cases hc : env.success = false ∧ attempt ≤ maxRetries
      · unfold withRetryGo
        rw [ho]
        simp only [dif_pos hc]
        exact ih (attempt + 1) le (by omega)
      · unfold withRetryGo
        rw [ho]
        simp only [dif_neg hc]
        exact hop attempt env ho
    | throws m =>
      by_cases hc : attempt ≤ maxRetries
      · unfold withRetryGo
        rw [ho]
        simp only [dif_pos hc]
        exact ih (attempt + 1) (some m) (by omega)
      · unfold withRetryGo
        rw [ho]
        simp only [dif_neg hc]
        exact envInv_of _ (fun h => nomatch h) (fun _ => ⟨rfl, rfl⟩)

theorem withRetry_envInv (op : Nat → AttemptOutcome)
    (hop : ∀ i env, op i = .resolves env → envInv env) :
    envInv (withRetry op).result :=
  withRetryGo_envInv op hop (maxRetries + 1) 1 none (by omega)

/-- Claim C2: every `APIResult` envelope produced by the request layer
satisfies the envelope invariant — `success=true` implies data present and
error absent, `success=false` implies error present and data absent, never
both, never neither.  For `postJSON` this holds for every fetch behaviour;
for `withRetry` it holds whenever the wrapped operation only resolves to
invariant-satisfying envelopes (as every apiClient operation — `postJSON`,
`healthCheck`, `getSamplePrompts` — does). -/
theorem claim_C2_envelope_invariant :
    (∀ fetches : Nat → FetchOutcome, envInv (postJSON fetches).result) ∧
    (∀ op : Nat → AttemptOutcome,
      (∀ i env, op i = .resolves env → envInv env) →
      envInv (withRetry op).result) := by
  constructor
  · intro fetches
    exact withRetry_envInv _ (fun i env h => by
      cases h
      exact postJSONOperation_envInv (fetches i))
  · intro op hop
    exact withRetry_envInv op hop

/-- Witness for C2: the invariant holds for a concrete always-failing
`postJSON` call and for a concrete `withRetry` over an operation that
resolves to a well-formed success envelope. -/
theorem claim_C2_witness :
    envInv (postJSON (fun _ => .fthrows "network down")).result ∧
    envInv (withRetry (fun _ =>
      .resolves { success := true, data := some .jnull })).result :=
  ⟨claim_C2_envelope_invariant.1 _,
    claim_C2_envelope_invariant.2 _ (fun _ env h => by
      cases h
      exact envInv_of _ (fun _ => ⟨rfl, rfl⟩) (fun h2 => nomatch h2))⟩

/-- Counterexample to claim C4: the solution-architect validator does
throw.  On an input with two violations (non-string `problem_statement`
and non-array `solution_analysis`), `validateData` throws an Error naming
only the first violation instead of returning a result that collects
both. -/
theorem claim_C4_counterexample :
    SolutionArchitectResponseParser.validateData
        (.jobj [("problem_statement", .jnum 1), ("solution_analysis", .jstr "x")])
      = .error "problem_statement must be a string" := rfl

/-- Claim C4 (amended): only the analysis family's validator collects every
violation found into an error list without throwing (an input missing
`product_goal` and supplying a non-array `target_segments` is reported with
both errors); the assessment validator never throws but returns only a bare
first-failure boolean with no error list; the critique validator likewise
returns a bare first-failure boolean, but throws a TypeError when a
`critique_points` element is `null` (the per-point property read); and the
solution-architect validator throws an Error naming only the first
violation. -/
theorem claim_C4_amended (ps : List (String × JVal))
    (h1 : (JVal.jobj ps).getProp "product_goal" = none)
    (h2 : ProductAnalysisReader.isArrayOpt
      ((JVal.jobj ps).getProp "target_segments") = false) :
    ("Missing product_goal" ∈ (ProductAnalysisReader.validate (.jobj ps)).errors ∧
     "target_segments must be an array"
        ∈ (ProductAnalysisReader.validate (.jobj ps)).errors) ∧
    AssessmentResponseParser.validate (.jobj [("overall_score", .jstr "high")]) = false ∧
    CritiqueResponseParser.validate (.jobj []) = some false ∧
    CritiqueResponseParser.validate
        (.jobj [("overall_summary", .jstr "s"),
          ("critique_points", .jarr [.jnull] [])]) = none ∧
    SolutionArchitectResponseParser.validateData
        (.jobj [("problem_statement", .jnum 1), ("solution_analysis", .jstr "x")])
      = .error "problem_statement must be a string" := by
  refine ⟨?_, rfl, rfl, rfl, rfl⟩
  have ht : (JVal.jobj ps).truthy = true := rfl
  constructor
  · unfold ProductAnalysisReader.validate
    simp [ht, h1, ProductAnalysisReader.isUndefOrNull]
  · unfold ProductAnalysisReader.validate
    simp [ht, h2]

/-- Witness for C4 (amended): the empty object misses `product_goal` and
has no array `target_segments`; both violations appear in the analysis
validator's error list, while the other validators give their single
boolean or throwing verdicts. -/
theorem claim_C4_witness :
    ("Missing product_goal" ∈ (ProductAnalysisReader.validate (.jobj [])).errors ∧
     "target_segments must be an array"
        ∈ (ProductAnalysisReader.validate (.jobj [])).errors) ∧
    AssessmentResponseParser.validate (.jobj [("overall_score", .jstr "high")]) = false ∧
    CritiqueResponseParser.validate (.jobj []) = some false ∧
    CritiqueResponseParser.validate
        (.jobj [("overall_summary", .jstr "s"),
          ("critique_points", .jarr [.jnull] [])]) = none ∧
    SolutionArchitectResponseParser.validateData
        (.jobj [("problem_statement", .jnum 1), ("solution_analysis", .jstr "x")])
      = .error "problem_statement must be a string" :=
  claim_C4_amended [] rfl rfl

/-- Counterexample to claim C5: on the assessment family, calling a derived
accessor before any record is loaded is not a `NotLoaded` error condition —
`getScoreRanking` silently returns `[]` and `getAnalysis` silently returns
the all-zero record with grade `F`. -/
theorem claim_C5_counterexample :
    AssessmentResponseParser.getScoreRanking AssessmentResponseParser.State.init = [] ∧
    AssessmentResponseParser.getAnalysis AssessmentResponseParser.State.init
      = some ⟨0, 0, 0, 0, [], "F"⟩ :=
  ⟨rfl, rfl⟩

/-- Claim C5 (amended): only the solution-architect family's accessors
throw `"Data not loaded..."` in the unloaded state; the assessment family's
derived accessors (ranking, needs-improvement filter, best/worst category,
analysis with grade) silently return empty/default results; the top-level
is-loaded probes succeed, returning false. -/
theorem claim_C5_amended :
    SolutionArchitectResponseParser.getEvaluationTable
        SolutionArchitectResponseParser.State.init
      = .error SolutionArchitectResponseParser.notLoadedMsg ∧
    SolutionArchitectResponseParser.getApproachPros
        SolutionArchitectResponseParser.State.init "A"
      = .error SolutionArchitectResponseParser.notLoadedMsg ∧
    SolutionArchitectResponseParser.getSolutionAnalysis
        SolutionArchitectResponseParser.State.init "A"
      = .error SolutionArchitectResponseParser.notLoadedMsg ∧
    SolutionArchitectResponseParser.isLoaded SolutionArchitectResponseParser.State.init
      = false ∧
    AssessmentResponseParser.getScoreRanking AssessmentResponseParser.State.init = [] ∧
    AssessmentResponseParser.getCategoriesNeedingImprovement
        AssessmentResponseParser.State.init = [] ∧
    AssessmentResponseParser.getBestCategory AssessmentResponseParser.State.init
      = none ∧
    AssessmentResponseParser.getWorstCategory AssessmentResponseParser.State.init
      = none ∧
    AssessmentResponseParser.getAnalysis AssessmentResponseParser.State.init
      = some ⟨0, 0, 0, 0, [], "F"⟩ ∧
    AssessmentResponseParser.isLoaded AssessmentResponseParser.State.init = false :=
  ⟨rfl, rfl, rfl, rfl, rfl, rfl, rfl, rfl, rfl, rfl⟩

/-- Claim C6: alias resolution follows the fixed first-non-null precedence.
For every loaded state whose found solution-approach object has no `pros`
key and a `key_benefits` array, `getApproachPros` returns that
`key_benefits` list exactly; and when the comparison summary has no
`evaluation_table` but a `prioritization_matrix` array,
`getEvaluationTable` returns the `prioritization_matrix` contents
unchanged. -/
theorem claim_C6_alias_precedence
    (st : SolutionArchitectResponseParser.State) (d a kb cs pm : JVal) (name : String)
    (hl : SolutionArchitectResponseParser.isLoaded st = true)
    (hd : st.data = some d)
    (hfind : SolutionArchitectResponseParser.findApproach d name = some a)
    (hnopros : a.getProp "pros" = none)
    (hkb : a.getProp "key_benefits" = some kb)
    (hkbarr : kb.isArray = true)
    (hcs : d.getProp "comparison_summary" = some cs)
    (hnoet : cs.getProp "evaluation_table" = none)
    (hpm : cs.getProp "prioritization_matrix" = some pm)
    (hpmarr : pm.isArray = true) :
    SolutionArchitectResponseParser.getApproachPros st name = .ok kb ∧
    SolutionArchitectResponseParser.getEvaluationTable st = .ok pm := by
  have htkb : kb.truthy = true := by
    cases kb <;> simp_all [JVal.isArray, JVal.truthy]
  have htpm : pm.truthy = true := by
    cases pm <;> simp_all [JVal.isArray, JVal.truthy]
  constructor
  · unfold SolutionArchitectResponseParser.getApproachPros
    simp [hl, hd, hfind, hnopros, hkb, jsOr, jsOrDefault, truthyOpt, htkb]
  · unfold SolutionArchitectResponseParser.getEvaluationTable
    simp [hl, hd, hcs, hnoet, hpm, jsOr, jsOrDefault, truthyOpt, htpm]

/-- Witness for C6: loading `saAliasExample` and reading the benefits of
approach `"A"` yields its `key_benefits` list, and the evaluation table is
the `prioritization_matrix` contents. -/
theorem claim_C6_witness :
    SolutionArchitectResponseParser.getApproachPros
        (SolutionArchitectResponseParser.loadFromObject
          SolutionArchitectResponseParser.State.init saAliasExample).1 "A"
      = .ok (.jarr [.jstr "fast to ship"] []) ∧
    SolutionArchitectResponseParser.getEvaluationTable
        (SolutionArchitectResponseParser.loadFromObject
          SolutionArchitectResponseParser.State.init saAliasExample).1
      = .ok (.jarr [] []) :=
  claim_C6_alias_precedence _ saAliasExample _ _ _ _ "A"
    rfl rfl rfl rfl rfl rfl rfl rfl rfl rfl

theorem saveHistory_le (d : HistoryManager.HistoryData) (now : String) :
    (HistoryManager.saveHistory d now).entries.length ≤ 100 := by
  unfold HistoryManager.saveHistory HistoryManager.MAX_ENTRIES
  by_cases h : d.entries.length > 100
  · simp [h]
    omega
  · simp [h]
    omega

theorem stepOp_le (storage : Option HistoryManager.HistoryData)
    (op : HistoryManager.HOp) (h : HistoryManager.storedCount storage ≤ 100) :
    HistoryManager.storedCount (HistoryManager.stepOp storage op) ≤ 100 := by
  cases op with
  | add t p hf fc id now =>
    simp [HistoryManager.stepOp, HistoryManager.addEntry, HistoryManager.storedCount,
      saveHistory_le]
  | updStatus id s e md now =>
    simp only [HistoryManager.stepOp, HistoryManager.updateEntryStatus]
    cases hm : HistoryManager.updateFirstById
        (HistoryManager.getHistory storage now).entries id _ with
    | none => simpa [hm] using h
    | some es => simp [hm, HistoryManager.storedCount, saveHistory_le]
  | updResults id r now =>
    simp only [HistoryManager.stepOp, HistoryManager.updateEntryResults]
    cases hm : HistoryManager.updateFirstById
        (HistoryManager.getHistory storage now).entries id _ with
    | none => simpa [hm] using h
    | some es => simp [hm, HistoryManager.storedCount, saveHistory_le]
  | del id now =>
    simp [HistoryManager.stepOp, HistoryManager.deleteEntry, HistoryManager.storedCount,
      saveHistory_le]
  | clear now =>
    simp [HistoryManager.stepOp, HistoryManager.clearHistory, HistoryManager.storedCount,
      saveHistory_le]

theorem runOps_le (ops : List HistoryManager.HOp) :
    ∀ storage, HistoryManager.storedCount storage ≤ 100 →
      HistoryManager.storedCount (HistoryManager.runOps storage ops) ≤ 100 := by
  induction ops with
  | nil => intro storage h; exact h
  | cons op rest ih =>
    intro storage h
    exact ih (HistoryManager.stepOp storage op) (stepOp_le storage op h)

/-- Claim C7: starting from an empty store, after every sequence of
HistoryStore operations the persisted store holds at most 100 entries; and
adding a new entry when the store already holds exactly 100 evicts, at
persist time, exactly the single oldest entry (the head of the
creation-ordered list), leaving the store at 100 entries with the newly
added entry present (appended last). -/
theorem claim_C7_history_cap :
    (∀ ops : List HistoryManager.HOp,
      HistoryManager.storedCount (HistoryManager.runOps none ops) ≤ 100) ∧
    (∀ (storage : Option HistoryManager.HistoryData)
        (type prompt : String) (hasFiles : Bool) (fileCount : Nat) (id now : String),
      (HistoryManager.getHistory storage now).entries.length = 100 →
      HistoryManager.addEntry storage type prompt hasFiles fileCount id now =
        some ⟨(HistoryManager.getHistory storage now).entries.drop 1 ++
          [HistoryManager.newEntry type prompt hasFiles fileCount id now], now⟩ ∧
      HistoryManager.storedCount
        (HistoryManager.addEntry storage type prompt hasFiles fileCount id now) = 100 ∧
      HistoryManager.newEntry type prompt hasFiles fileCount id now ∈
        (HistoryManager.getHistory storage now).entries.drop 1 ++
          [HistoryManager.newEntry type prompt hasFiles fileCount id now]) := by
  constructor
  · intro ops
    exact runOps_le ops none (by simp [HistoryManager.storedCount])
  · intro storage type prompt hasFiles fileCount id now h100
    have hlen : ((HistoryManager.getHistory storage now).entries ++
        [HistoryManager.newEntry type prompt hasFiles fileCount id now]).length = 101 := by
      simp [h100]
    have heq : HistoryManager.addEntry storage type prompt hasFiles fileCount id now =
        some ⟨(HistoryManager.getHistory storage now).entries.drop 1 ++
          [HistoryManager.newEntry type prompt hasFiles fileCount id now], now⟩ := by
      unfold HistoryManager.addEntry HistoryManager.saveHistory HistoryManager.MAX_ENTRIES
      dsimp only
      rw [if_pos (by rw [hlen]; omega), hlen]
      rw [show (101 : Nat) - 100 = 1 from rfl]
      rw [List.drop_append_of_le_length (by rw [h100]; omega)]
    refine ⟨heq, ?_, by simp⟩
    rw [heq]
    simp [HistoryManager.storedCount, h100]

/-- Witness for C7: a store holding exactly 100 entries evicts the oldest
on the next `addEntry` and stays at 100 with the new entry present (and the
capacity bound holds for a concrete operation sequence via the first
conjunct). -/
theorem claim_C7_witness :
    HistoryManager.addEntry
        (some ⟨List.replicate 100
          (HistoryManager.newEntry "ui" "p0" false 0 "id0" "t0"), "t0"⟩)
        "analysis" "p" false 0 "id1" "t1" =
      some ⟨(HistoryManager.getHistory
          (some ⟨List.replicate 100
            (HistoryManager.newEntry "ui" "p0" false 0 "id0" "t0"), "t0"⟩)
          "t1").entries.drop 1 ++
        [HistoryManager.newEntry "analysis" "p" false 0 "id1" "t1"], "t1"⟩ ∧
    HistoryManager.storedCount
        (HistoryManager.addEntry
          (some ⟨List.replicate 100
            (HistoryManager.newEntry "ui" "p0" false 0 "id0" "t0"), "t0"⟩)
          "analysis" "p" false 0 "id1" "t1") = 100 ∧
    HistoryManager.newEntry "analysis" "p" false 0 "id1" "t1" ∈
      (HistoryManager.getHistory
          (some ⟨List.replicate 100
            (HistoryManager.newEntry "ui" "p0" false 0 "id0" "t0"), "t0"⟩)
          "t1").entries.drop 1 ++
        [HistoryManager.newEntry "analysis" "p" false 0 "id1" "t1"] :=
  claim_C7_history_cap.2
    (some ⟨List.replicate 100
      (HistoryManager.newEntry "ui" "p0" false 0 "id0" "t0"), "t0"⟩)
    "analysis" "p" false 0 "id1" "t1" (by simp [HistoryManager.getHistory])

/-- Counterexample to claim C8: `updateEntryResults` performs no separate
nested merge for the `uiState` sub-bag.  An entry whose stored `uiState`
holds `activeTab` and `uiInput`, updated with a `uiState` mentioning only
`activeTab`, ends up with `uiState` replaced wholesale: the stored
`uiInput` is lost rather than preserved. -/
theorem claim_C8_counterexample :
    (HistoryManager.updateEntryResults
        (some ⟨[{ id := "e1", timestamp := "t", type := "ui", prompt := "p",
                  title := "p", status := "pending",
                  results := some [("uiState",
                    .jobj [("activeTab", .jstr "ui"), ("uiInput", .jstr "abc")])] }], "t"⟩)
        "e1" [("uiState", .jobj [("activeTab", .jstr "analysis")])] "t2").map
      (fun d => d.entries.map (fun e => e.results)) =
    some [some [("uiState", .jobj [("activeTab", .jstr "analysis")])]] := rfl

theorem updateFirstById_append (pre post : List HistoryManager.HistoryEntry)
    (e : HistoryManager.HistoryEntry) (id : String)
    (f : HistoryManager.HistoryEntry → HistoryManager.HistoryEntry)
    (hid : e.id = id) (hpre : ∀ e' ∈ pre, e'.id ≠ id) :
    HistoryManager.updateFirstById (pre ++ e :: post) id f = some (pre ++ f e :: post) := by
  induction pre with
  | nil => simp [HistoryManager.updateFirstById, hid]
  | cons p rest ih =>
    have hp : p.id ≠ id := hpre p (by simp)
    simp [HistoryManager.updateFirstById, hp,
      ih (fun e' he' => hpre e' (by simp [he']))]

/-- Claim C8 (amended): for an existing entry id, `updateEntryResults`
performs only a shallow spread merge of the partial results onto the
entry's existing `results` object — there is no separate nested merge for
the `uiState` sub-bag, so an update that mentions `uiState` replaces that
whole sub-bag — and entries with other ids are unchanged (the surrounding
list is preserved; no eviction occurs while the store is within its
100-entry cap). -/
theorem claim_C8_amended
    (pre post : List HistoryManager.HistoryEntry) (e : HistoryManager.HistoryEntry)
    (lu id now : String) (upd : List (String × JVal))
    (hid : e.id = id)
    (hpre : ∀ e' ∈ pre, e'.id ≠ id)
    (hlen : (pre ++ e :: post).length ≤ 100) :
    HistoryManager.updateEntryResults (some ⟨pre ++ e :: post, lu⟩) id upd now =
      some ⟨pre ++
        { e with results := some (spreadMerge (e.results.getD []) upd) } :: post,
        now⟩ := by
  unfold HistoryManager.updateEntryResults HistoryManager.getHistory
  dsimp only
  rw [updateFirstById_append pre post e id _ hid hpre]
  unfold HistoryManager.saveHistory HistoryManager.MAX_ENTRIES
  dsimp only
  rw [if_neg]
  simp only [List.length_append, List.length_cons] at hlen ⊢
  omega

/-- Witness for C8 (amended): a concrete single-entry store whose update
mentions `uiState` and a fresh key; the stored results become the shallow
merge (the old `uiState` bag is replaced, the untouched key `a` is kept). -/
theorem claim_C8_witness :
    HistoryManager.updateEntryResults
        (some ⟨[] ++ { id := "e1", timestamp := "t", type := "ui", prompt := "p",
                       title := "p", status := "pending",
                       results := some [("a", .jnum 1),
                         ("uiState", .jobj [("x", .jstr "y")])] } :: [], "t"⟩)
        "e1" [("uiState", .jobj [("z", .jstr "w")]), ("b", .jstr "v")] "t2" =
      some ⟨[] ++ { id := "e1", timestamp := "t", type := "ui", prompt := "p",
                    title := "p", status := "pending",
                    results := some (spreadMerge
                      ((some [("a", .jnum 1),
                        ("uiState", .jobj [("x", .jstr "y")])] : Option _).getD [])
                      [("uiState", .jobj [("z", .jstr "w")]),
                        ("b", .jstr "v")]) } :: [], "t2"⟩ :=
  claim_C8_amended [] []
    { id := "e1", timestamp := "t", type := "ui", prompt := "p",
      title := "p", status := "pending",
      results := some [("a", .jnum 1), ("uiState", .jobj [("x", .jstr "y")])] }
    "t" "e1" "t2" [("uiState", .jobj [("z", .jstr "w")]), ("b", .jstr "v")]
    rfl (fun e' he' => absurd he' (by simp)) (by simp)

/-- Claim C9: after a save at `t0`, a `loadState` at a time `t1` with
`t1 - t0` beyond the 24-hour TTL clears the persisted value and returns
the default snapshot, and every subsequent `loadState` without an
intervening save also returns the default — the expiry is sticky because
the persisted value is gone. -/
theorem claim_C9_cache_expiry
    (storage : Option CacheManager.AppCache) (p : CacheManager.AppCachePatch)
    (t0 t1 : Nat) (hexp : t1 - t0 > CacheManager.CACHE_EXPIRY) :
    (CacheManager.loadState (CacheManager.saveState storage p t0) t1).2
      = CacheManager.getDefaultState t1 ∧
    (CacheManager.loadState (CacheManager.saveState storage p t0) t1).1 = none ∧
    (∀ t2 : Nat,
      (CacheManager.loadState
        (CacheManager.loadState (CacheManager.saveState storage p t0) t1).1 t2).2
        = CacheManager.getDefaultState t2) := by
  have hsaved : (CacheManager.saveState storage p t0).isSome = true := rfl
  have hlu : ∀ c, CacheManager.saveState storage p t0 = some c → c.lastUpdated = t0 := by
    intro c hc
    unfold CacheManager.saveState at hc
    simp only [Option.some_inj] at hc
    rw [← hc]
  cases hs : CacheManager.saveState storage p t0 with
  | none => rw [hs] at hsaved; simp at hsaved
  | some c =>
    have hc0 : c.lastUpdated = t0 := hlu c hs
    have hcond : t1 - c.lastUpdated > CacheManager.CACHE_EXPIRY := by rw [hc0]; exact hexp
    unfold CacheManager.loadState
    simp [hcond, CacheManager.clearCache, CacheManager.loadState]

/-- Witness for C9: saving the empty patch at time 0 and loading 25 hours
later returns the default snapshot twice in a row with the storage
cleared. -/
theorem claim_C9_witness :
    (CacheManager.loadState (CacheManager.saveState none {} 0) 90000000).2
      = CacheManager.getDefaultState 90000000 ∧
    (CacheManager.loadState (CacheManager.saveState none {} 0) 90000000).1 = none ∧
    (∀ t2 : Nat,
      (CacheManager.loadState
        (CacheManager.loadState (CacheManager.saveState none {} 0) 90000000).1 t2).2
        = CacheManager.getDefaultState t2) :=
  claim_C9_cache_expiry none {} 0 90000000 (by decide)

/-- Counterexample to claim C10: the string `"null"` parses as JSON and its
value fails assessment validation, and `loadFromString` does return false
and store the parsed value — but `isLoaded()` subsequently returns false,
not true (`null !== null` is false), contradicting the claim's universal
conclusion. -/
theorem claim_C10_counterexample :
    (AssessmentResponseParser.loadFromString AssessmentResponseParser.State.init
        "null" (.ok .jnull)).2 = false ∧
    AssessmentResponseParser.validate .jnull = false ∧
    (AssessmentResponseParser.loadFromString AssessmentResponseParser.State.init
        "null" (.ok .jnull)).1.data = .jnull ∧
    AssessmentResponseParser.isLoaded
      (AssessmentResponseParser.loadFromString AssessmentResponseParser.State.init
        "null" (.ok .jnull)).1 = false :=
  ⟨rfl, rfl, rfl, rfl⟩

/-- Claim C10 (amended): for every string that parses as a non-null JSON
value failing assessment validation, `loadFromString` returns false yet
still stores the parsed value as the current record: `isLoaded()`
subsequently returns true, and the accessors serve values from the invalid
record (`getData` returns it; `getOverallScore` reads its
`overall_score`), not from the previous or empty state. -/
theorem claim_C10_amended (st : AssessmentResponseParser.State) (s : String) (v : JVal)
    (hnn : jsIsNull v = false)
    (hinvalid : AssessmentResponseParser.validate v = false) :
    (AssessmentResponseParser.loadFromString st s (.ok v)).2 = false ∧
    (AssessmentResponseParser.loadFromString st s (.ok v)).1.data = v ∧
    AssessmentResponseParser.isLoaded
      (AssessmentResponseParser.loadFromString st s (.ok v)).1 = true ∧
    AssessmentResponseParser.getData
      (AssessmentResponseParser.loadFromString st s (.ok v)).1 = v ∧
    AssessmentResponseParser.getOverallScore
      (AssessmentResponseParser.loadFromString st s (.ok v)).1
      = jsOrDefault (optChain v "overall_score") (.jnum 0) := by
  refine ⟨?_, rfl, ?_, rfl, rfl⟩
  · simpa [AssessmentResponseParser.loadFromString] using hinvalid
  · simp [AssessmentResponseParser.loadFromString, AssessmentResponseParser.isLoaded, hnn]

/-- Witness for C10 (amended): the empty object parses, fails validation
(no `scores`), is stored, and is served by the accessors while
`isLoaded()` is true; here it overwrites a previously loaded record. -/
theorem claim_C10_witness :
    (AssessmentResponseParser.loadFromString
        ⟨.jobj [("scores", .jobj [])], "old"⟩ "{}" (.ok (.jobj []))).2 = false ∧
    (AssessmentResponseParser.loadFromString
        ⟨.jobj [("scores", .jobj [])], "old"⟩ "{}" (.ok (.jobj []))).1.data
      = .jobj [] ∧
    AssessmentResponseParser.isLoaded
      (AssessmentResponseParser.loadFromString
        ⟨.jobj [("scores", .jobj [])], "old"⟩ "{}" (.ok (.jobj []))).1 = true ∧
    AssessmentResponseParser.getData
      (AssessmentResponseParser.loadFromString
        ⟨.jobj [("scores", .jobj [])], "old"⟩ "{}" (.ok (.jobj []))).1 = .jobj [] ∧
    AssessmentResponseParser.getOverallScore
      (AssessmentResponseParser.loadFromString
        ⟨.jobj [("scores", .jobj [])], "old"⟩ "{}" (.ok (.jobj []))).1
      = jsOrDefault (optChain (.jobj []) "overall_score") (.jnum 0) :=
  claim_C10_amended ⟨.jobj [("scores", .jobj [])], "old"⟩ "{}" (.jobj []) rfl rfl
